import Mathlib

/-!
# render2024: echo / hello HTTP examples

A shallow embedding of the five example programs
(`examples/v1`, `examples/v3`, `tutorial/all_in_one`, `tutorial/manual_di`,
`tutorial/fx`).  The programs are glue around the Go standard library, so the
embedding has two layers:

* an executable model of the library calls the programs make (`io.Copy`,
  `io.ReadAll`, `fmt.Fprintf`, `http.Error`, `http.ResponseWriter`,
  `http.ServeMux`, `net.Listen`, `os.Exit`, the zap logger), following the
  documented contracts of those calls;
* the handlers, constructors and `main` functions of the repository,
  transcribed statement by statement on top of that model.
-/

namespace Render2024

/-! ## Bytes, log events -/

/-- One octet of a request or response body. -/
abbrev Byte := Fin 256

/-- Bytes of an ASCII string constant of the source. -/
def ascii (s : String) : List Byte := s.toList.map (fun c => Fin.ofNat c.toNat)

/-- Levels of the zap logger used by the programs. -/
inductive Level where
  | info
  | warn
  | error
  deriving DecidableEq, Repr

/-- One structured log record: level and message (fields are not recorded). -/
structure LogEvent where
  level : Level
  msg : String
  deriving DecidableEq, Repr

/-- The logger is modelled by the sequence of records emitted so far,
oldest first. -/
abbrev Logger := List LogEvent

/-- Model of `(*zap.Logger).Info`. -/
def Logger.Info (l : Logger) (msg : String) : Logger := l ++ [⟨Level.info, msg⟩]

/-- Model of `(*zap.Logger).Warn`. -/
def Logger.Warn (l : Logger) (msg : String) : Logger := l ++ [⟨Level.warn, msg⟩]

/-- Model of `(*zap.Logger).Error`. -/
def Logger.Error (l : Logger) (msg : String) : Logger := l ++ [⟨Level.error, msg⟩]

/-- Number of records of a given level in a log. -/
def countLevel (lv : Level) (l : Logger) : Nat := l.countP (fun e => e.level = lv)

/-! ## Request bodies and response writers -/

/-- Errors returned by the stream operations. -/
inductive IoErr where
  | read
  | write
  deriving DecidableEq, Repr

/-- A request body as the reader delivers it: successive `Read` calls return
the chunks in order; the call after the last chunk returns `io.EOF`
(`fails = false`) or a read error (`fails = true`). -/
structure Body where
  chunks : List (List Byte)
  fails : Bool
  deriving DecidableEq, Repr

/-- The bytes a body carries, in order. -/
def Body.bytes (b : Body) : List Byte := b.chunks.flatten

/-- An HTTP request as far as the programs look at it. `host` is the request
host with the port stripped; `path` is the URL path (`r.URL.Path`) of a
request that is sent in its usual encoding, so that the escaped path is the
percent-encoding of `path`. The asterisk form `*` is the only request target
whose path is `*`. -/
structure Request where
  method : String
  host : List Char
  path : List Char
  body : Body
  deriving DecidableEq, Repr

/-- State of an `http.ResponseWriter`.

* `status` is `none` until the header is written; then it holds the status
  code that was sent.
* `location` is the `Location` header, the only header field recorded.
* `body` holds the body bytes accepted so far.
* `faults` scripts the outcome of the successive `Write` calls: `none` means
  the call accepts all its bytes, `some k` means it accepts at most `k` bytes
  and returns an error. Calls beyond the script succeed. -/
structure ResponseWriter where
  status : Option Nat
  location : Option (List Char)
  body : List Byte
  faults : List (Option Nat)
  deriving DecidableEq, Repr

/-- A response writer at the start of a request. -/
def ResponseWriter.fresh (faults : List (Option Nat)) : ResponseWriter :=
  { status := none, location := none, body := [], faults := faults }

/-- Model of `ResponseWriter.WriteHeader`: the first call sends the status
line; a call after the header has been written is ignored (net/http logs
"superfluous response.WriteHeader call"). -/
def ResponseWriter.WriteHeader (w : ResponseWriter) (code : Nat) : ResponseWriter :=
  match w.status with
  | some _ => w
  | none => { w with status := some code }

/-- Model of `ResponseWriter.Write`: "if WriteHeader has not yet been called,
Write calls WriteHeader(http.StatusOK) before writing the data"; then the
bytes are accepted as the next entry of `faults` says. Returns the writer,
the number of bytes accepted and the error. -/
def ResponseWriter.Write (w : ResponseWriter) (p : List Byte) :
    ResponseWriter × Nat × Option IoErr :=
  let w1 := w.WriteHeader 200
  match w1.faults with
  | [] => ({ w1 with body := w1.body ++ p }, p.length, none)
  | none :: fs => ({ w1 with body := w1.body ++ p, faults := fs }, p.length, none)
  | some k :: fs =>
    ({ w1 with body := w1.body ++ p.take k, faults := fs }, min k p.length, some IoErr.write)

/-- Status code the client receives: when the handler returns without having
written the header, the server sends `200 OK`. -/
def ResponseWriter.finalStatus (w : ResponseWriter) : Nat := w.status.getD 200

/-- Model of `io.Copy(w, r.Body)`: read chunk after chunk; write each
non-empty chunk; stop at the first write error or short write, at a read
error, or at EOF (which is not an error). Returns the writer, the number of
bytes written and the error. -/
def ioCopy (w : ResponseWriter) : List (List Byte) → Bool → ResponseWriter × Nat × Option IoErr
  | [], fails => (w, 0, if fails then some IoErr.read else none)
  | c :: cs, fails =>
    if 0 < c.length then
      match w.Write c with
      | (w1, nw, some e) => (w1, nw, some e)
      | (w1, nw, none) =>
        if c.length ≠ nw then (w1, nw, some IoErr.write)
        else
          match ioCopy w1 cs fails with
          | (w2, n, e) => (w2, nw + n, e)
    else ioCopy w cs fails

/-- Model of `io.ReadAll(r.Body)`: the bytes read until EOF or error, and the
error. -/
def ioReadAll (b : Body) : List Byte × Option IoErr :=
  (b.bytes, if b.fails then some IoErr.read else none)

/-- Model of `fmt.Fprintf(w, "Hello, %s\n", body)`: the verb `%s` on a byte
slice emits the bytes uninterpreted; the formatted text goes to `w` in a
single `Write`. -/
def fmtFprintfHello (w : ResponseWriter) (body : List Byte) :
    ResponseWriter × Nat × Option IoErr :=
  w.Write (ascii "Hello, " ++ body ++ ascii "\n")

/-- Model of `http.Error(w, msg, code)`: `w.WriteHeader(code)` followed by
`fmt.Fprintln(w, msg)`, whose result is discarded. -/
def httpError (w : ResponseWriter) (msg : String) (code : Nat) : ResponseWriter :=
  ((w.WriteHeader code).Write (ascii msg ++ ascii "\n")).1

/-- The constant `http.StatusInternalServerError`. -/
def StatusInternalServerError : Nat := 500

/-- The constant `http.StatusNotFound`. -/
def StatusNotFound : Nat := 404

/-- The constant `http.StatusTemporaryRedirect`, the status of the redirects
that the mux issues. (Go releases with the older mux answered 301.) -/
def StatusTemporaryRedirect : Nat := 307

/-- The constant `http.StatusBadRequest`. -/
def StatusBadRequest : Nat := 400

/-- Bytes of a text that holds ASCII characters only. -/
def asciiChars (s : List Char) : List Byte := s.map (fun c => Fin.ofNat c.toNat)

/-- An `http.Handler`: its `ServeHTTP` acts on the response writer and, through
the logger it holds, on the log. -/
abbrev Handler := ResponseWriter → Request → Logger → ResponseWriter × Logger

/-! ## Handlers of the five programs -/

/-- The pattern `"/echo"`. -/
def echoPattern : List Char := ['/', 'e', 'c', 'h', 'o']

/-- The pattern `"/hello"`. -/
def helloPattern : List Char := ['/', 'h', 'e', 'l', 'l', 'o']

/-- Body shared by all echo handlers after their first log line:
`if _, err := io.Copy(w, r.Body); err != nil { log.Warn(...) }`. -/
def echoBody (w : ResponseWriter) (r : Request) (log : Logger) : ResponseWriter × Logger :=
  match ioCopy w r.body.chunks r.body.fails with
  | (w1, _, some _) => (w1, log.Warn "Failed to handle request")
  | (w1, _, none) => (w1, log)

/-- Body shared by all hello handlers after their first log line. -/
def helloBody (w : ResponseWriter) (r : Request) (log : Logger) : ResponseWriter × Logger :=
  match ioReadAll r.body with
  | (_, some _) =>
    let log1 := log.Error "Failed to read request"
    (httpError w "Internal server error" StatusInternalServerError, log1)
  | (body, none) =>
    match fmtFprintfHello w body with
    | (w1, _, some _) =>
      let log1 := log.Error "Failed to write response"
      (httpError w1 "Internal server error" StatusInternalServerError, log1)
    | (w1, _, none) => (w1, log)

namespace v1

/-- The handler of `examples/v1/main.go`. -/
def handler : Handler := fun w r log =>
  echoBody w r (log.Info "[v1] Handler received request")

end v1

namespace v3

/-- The handler built by `NewHandler` of `examples/v3/main.go`. -/
def NewHandler : Handler := fun w r log =>
  echoBody w r (log.Info "[v3] - Handler received request")

end v3

namespace all_in_one

/-- The `echoHandler` of `tutorial/all_in_one/main.go`. -/
def echoHandler : Handler := fun w r log =>
  echoBody w r (log.Info "Received request for /echo")

/-- The `helloHandler` of `tutorial/all_in_one/main.go`. -/
def helloHandler : Handler := fun w r log =>
  helloBody w r (log.Info "Received request for /hello")

end all_in_one

namespace manual_di

/-- `(*EchoHandler).ServeHTTP` of `tutorial/manual_di/main.go`. -/
def EchoHandler.ServeHTTP : Handler := fun w r log =>
  echoBody w r (log.Info "Received request for /echo")

/-- `(*HelloHandler).ServeHTTP` of `tutorial/manual_di/main.go`. -/
def HelloHandler.ServeHTTP : Handler := fun w r log =>
  helloBody w r (log.Info "Received request for /hello")

end manual_di

namespace fx

/-- `(*EchoHandler).Pattern` of `tutorial/fx/main.go`. -/
def EchoHandler.Pattern : List Char := echoPattern

/-- `(*HelloHandler).Pattern` of `tutorial/fx/main.go`. -/
def HelloHandler.Pattern : List Char := helloPattern

/-- `(*EchoHandler).ServeHTTP` of `tutorial/fx/main.go`. -/
def EchoHandler.ServeHTTP : Handler := fun w r log =>
  echoBody w r (log.Info "Received request for handler")

/-- `(*HelloHandler).ServeHTTP` of `tutorial/fx/main.go`. -/
def HelloHandler.ServeHTTP : Handler := fun w r log =>
  helloBody w r (log.Info "Received request for handler")

end fx

/-! ## http.ServeMux

The multiplexer of net/http as documented: a pattern without a trailing
slash names one path, a pattern with a trailing slash names a rooted subtree
(the longest matching one wins), a pattern that does not begin with a slash
is host-specific; registering a pattern twice panics; a request whose path is
not in canonical form is answered by a redirect to the canonical path.

The model reads every pattern as literal text. That is what the mux does
for a pattern that holds no `{` (wildcard), no space or tab (method prefix)
and no `%` (escape); the patterns of the five programs, `/echo` and
`/hello`, are of that kind. Patterns with wildcards, methods or escapes, and
query strings, are outside the model. Panics are modelled by `Except.error`;
the text is that of the classic implementation, which later releases word
differently. -/

namespace http

/-- Path elements between slashes: `"/a//b"` gives `["", "a", "", "b"]`. -/
def segments : List Char → List (List Char)
  | [] => [[]]
  | c :: cs =>
    if c = '/' then [] :: segments cs
    else
      match segments cs with
      | [] => [[c]]
      | s :: ss => (c :: s) :: ss

/-- Resolution of the elements of a rooted path, as `path.Clean` does it:
empty elements and `.` are dropped, `..` removes the element before it (and
is dropped at the root). `out` holds the kept elements, last first. -/
def resolve (out : List (List Char)) : List (List Char) → List (List Char)
  | [] => out.reverse
  | s :: ss =>
    if s = [] ∨ s = ['.'] then resolve out ss
    else if s = ['.', '.'] then resolve out.tail ss
    else resolve (s :: out) ss

/-- Model of `path.Clean` on a rooted path. -/
def pathClean (p : List Char) : List Char :=
  '/' :: List.intercalate ['/'] (resolve [] (segments p))

/-- Model of `cleanPath` of net/http: the canonical form of a request path.
The empty path becomes `/`, a missing leading slash is added, the path is
cleaned, and a trailing slash is kept. -/
def cleanPath (p : List Char) : List Char :=
  if p = [] then ['/']
  else
    let q := if p.head? = some '/' then p else '/' :: p
    let np := pathClean q
    if q.getLast? = some '/' ∧ np ≠ ['/'] then np ++ ['/'] else np

/-- The multiplexer state: `m` is the map from pattern to handler (newest
binding first; there is at most one binding per pattern), `es` holds the
entries whose pattern ends in a slash, longest pattern first, and `hosts`
tells whether some pattern is host-specific. -/
structure ServeMux (H : Type) where
  m : List (List Char × H)
  es : List (List Char × H)
  hosts : Bool

/-- Model of `http.NewServeMux()`. -/
def NewServeMux {H : Type} : ServeMux H := { m := [], es := [], hosts := false }

/-- Model of `appendSorted`: insert `e` before the first entry with a
strictly shorter pattern. -/
def appendSorted {H : Type} : List (List Char × H) → List Char × H → List (List Char × H)
  | [], e => [e]
  | x :: xs, e => if x.1.length < e.1.length then e :: x :: xs else x :: appendSorted xs e

/-- Model of `(*ServeMux).Handle`: panics on the empty pattern and when the
pattern is already registered ("http: multiple registrations for ...");
otherwise records the binding. (A handler value is never nil here.) -/
def ServeMux.Handle {H : Type} (mux : ServeMux H) (pattern : List Char) (handler : H) :
    Except String (ServeMux H) :=
  if pattern = [] then Except.error "http: invalid pattern"
  else if (mux.m.lookup pattern).isSome then
    Except.error ("http: multiple registrations for " ++ String.mk pattern)
  else
    Except.ok
      { m := (pattern, handler) :: mux.m
        es := if pattern.getLast? = some '/' then appendSorted mux.es (pattern, handler)
              else mux.es
        hosts := if pattern.head? = some '/' then mux.hosts else true }

/-- Model of `(*ServeMux).match`: an exact binding first, then the longest
subtree pattern that starts the path. Returns the handler and its pattern. -/
def ServeMux.match' {H : Type} (mux : ServeMux H) (path : List Char) : Option (H × List Char) :=
  match mux.m.lookup path with
  | some h => some (h, path)
  | none => (mux.es.find? (fun e => e.1.isPrefixOf path)).map (fun e => (e.2, e.1))

/-- What the multiplexer selects for a request: a registered handler (with
its pattern), the redirect handler, or the not-found handler. -/
inductive Selected (H : Type) where
  | found (h : H) (pattern : List Char)
  | redirect (url : List Char) (code : Nat)
  | notFound

/-- Model of `(*ServeMux).handler`: host-specific patterns take precedence
over generic ones. -/
def ServeMux.handler {H : Type} (mux : ServeMux H) (host path : List Char) : Selected H :=
  let first := if mux.hosts then mux.match' (host ++ path) else none
  let r := match first with
    | some x => some x
    | none => mux.match' path
  match r with
  | some (h, p) => Selected.found h p
  | none => Selected.notFound

/-- Model of `(*ServeMux).shouldRedirectRLocked`: `path` has no binding of its
own but `path/` has one. -/
def ServeMux.shouldRedirectRLocked {H : Type} (mux : ServeMux H) (host path : List Char) : Bool :=
  if (mux.m.lookup path).isSome ∨ (mux.m.lookup (host ++ path)).isSome then false
  else if path = [] then false
  else if (mux.m.lookup (path ++ ['/'])).isSome ∨ (mux.m.lookup (host ++ path ++ ['/'])).isSome
    then decide (path.getLast? ≠ some '/')
  else false

/-- Model of `(*ServeMux).redirectToPathSlash`: the target of the redirect
from `/tree` to `/tree/`, if the mux asks for it. -/
def ServeMux.redirectToPathSlash {H : Type} (mux : ServeMux H) (host path : List Char) :
    Option (List Char) :=
  if mux.shouldRedirectRLocked host path then some (path ++ ['/']) else none

/-- UTF-8 encoding of a character. -/
def utf8 (c : Char) : List Nat :=
  let n := c.toNat
  if n < 128 then [n]
  else if n < 2048 then [192 + n / 64, 128 + n % 64]
  else if n < 65536 then [224 + n / 4096, 128 + n / 64 % 64, 128 + n % 64]
  else [240 + n / 262144, 128 + n / 4096 % 64, 128 + n / 64 % 64, 128 + n % 64]

/-- The hexadecimal digit of a number below sixteen, in upper case. -/
def upperhex (n : Nat) : Char :=
  ['0', '1', '2', '3', '4', '5', '6', '7', '8', '9', 'A', 'B', 'C', 'D', 'E', 'F'].getD n '0'

/-- Model of `shouldEscape(c, encodePath)` of net/url: letters, digits and
the marks `- _ . ~ $ & + , / : ; = @` stay as they are in a path. -/
def shouldEscape (b : Nat) : Bool :=
  !((97 ≤ b && b ≤ 122) || (65 ≤ b && b ≤ 90) || (48 ≤ b && b ≤ 57) ||
    ['-', '_', '.', '~', '$', '&', '+', ',', '/', ':', ';', '=', '@'].any
      (fun c => c.toNat == b))

/-- Model of `(&url.URL{Path: p}).String()`: the percent-encoding of a path. -/
def urlString (p : List Char) : List Char :=
  (p.flatMap utf8).flatMap
    (fun b => if shouldEscape b then ['%', upperhex (b / 16), upperhex (b % 16)]
      else [Char.ofNat b])

/-- Model of `htmlEscape` of net/http. -/
def htmlEscape (s : List Char) : List Char :=
  s.flatMap (fun c =>
    if c = '&' then "&amp;".toList
    else if c = '<' then "&lt;".toList
    else if c = '>' then "&gt;".toList
    else if c = '"' then "&#34;".toList
    else if c = '\'' then "&#39;".toList
    else [c])

/-- Model of `http.StatusText` on the codes that occur. -/
def StatusText (code : Nat) : String :=
  if code = 301 then "Moved Permanently"
  else if code = 307 then "Temporary Redirect"
  else if code = 400 then "Bad Request"
  else if code = 404 then "Not Found"
  else if code = 500 then "Internal Server Error"
  else ""

/-- Model of `(*ServeMux).Handler`: `CONNECT` requests are not canonicalised;
for every other request the path is cleaned, and a request whose path
differs from its canonical form is redirected to it. The redirect handler
receives the URL in its encoded form, `u.String()`. -/
def ServeMux.Handler {H : Type} (mux : ServeMux H) (r : Request) : Selected H :=
  if r.method = "CONNECT" then
    match mux.redirectToPathSlash r.host r.path with
    | some u => Selected.redirect (urlString u) StatusTemporaryRedirect
    | none => mux.handler r.host r.path
  else
    let path := cleanPath r.path
    match mux.redirectToPathSlash r.host path with
    | some u => Selected.redirect (urlString u) StatusTemporaryRedirect
    | none =>
      if path ≠ r.path then Selected.redirect (urlString path) StatusTemporaryRedirect
      else mux.handler r.host r.path

/-- Model of `http.Redirect(w, r, url, code)` for a `url` that is an absolute
path without query, as the mux hands it over: the path is cleaned, keeping a
trailing slash; the `Location` header is set and the status line written; a
`GET` request also gets a short HTML note as body. -/
def Redirect (w : ResponseWriter) (r : Request) (url : List Char) (code : Nat) :
    ResponseWriter :=
  let cleaned := pathClean url
  let target :=
    if url.getLast? = some '/' ∧ cleaned.getLast? ≠ some '/' then cleaned ++ ['/'] else cleaned
  let w1 := ({ w with location := some target }).WriteHeader code
  if r.method = "GET" then
    (w1.Write (asciiChars ("<a href=\"".toList ++ htmlEscape target ++ "\">".toList ++
      (StatusText code).toList ++ "</a>.\n".toList ++ "\n".toList))).1
  else w1

/-- Model of `http.NotFoundHandler().ServeHTTP`. -/
def NotFoundHandler (w : ResponseWriter) : ResponseWriter :=
  httpError w "404 page not found" StatusNotFound

/-- Model of `(*ServeMux).ServeHTTP`: a request whose target is `*` is
answered with 400; for every other request the selected handler runs. -/
def ServeMux.ServeHTTP (mux : ServeMux Render2024.Handler) : Render2024.Handler :=
  fun w r log =>
  if r.path = ['*'] then (w.WriteHeader StatusBadRequest, log)
  else
    match mux.Handler r with
    | Selected.found h _ => h w r log
    | Selected.redirect u code => (Redirect w r u code, log)
    | Selected.notFound => (NotFoundHandler w, log)

/-- Model of `serverHandler.ServeHTTP` for a server with default settings:
the request `OPTIONS *` is answered by the server itself, with an empty 200
response; every other request goes to the mux. -/
def serverHandler (mux : ServeMux Render2024.Handler) : Render2024.Handler :=
  fun w r log =>
  if r.method = "OPTIONS" ∧ r.path = ['*'] then (w, log)
  else mux.ServeHTTP w r log

/-- Whether the selection invokes a registered handler. -/
def Selected.invokes {H : Type} : Selected H → Option H
  | Selected.found h _ => some h
  | _ => none

end http

/-! ## Process environment: sockets, log output, exit -/

/-- A bound listening socket. -/
structure Listener where
  network : String
  addr : String
  deriving DecidableEq, Repr

/-- An error value of the net and net/http packages. -/
structure NetErr where
  msg : String
  deriving DecidableEq, Repr

/-- What a program does to its environment, in order. -/
inductive Effect where
  | listen (network addr : String)
  | log (e : LogEvent)
  | serve (ln : Listener)
  | goServe (ln : Listener)
  | shutdown
  | exit (code : Int)
  | panic (msg : String)
  deriving DecidableEq, Repr

/-- The environment of a process. `listenResult k` is what the `k`-th call
of `net.Listen` returns, `serveResult` the error with which `srv.Serve`
returns (`none`: it does not return during the run), `shutdownResult` the
result of `srv.Shutdown`; `listenCalls` counts the calls of `net.Listen` and
`trace` records the effects so far. -/
structure World where
  listenResult : Nat → Except NetErr Listener
  serveResult : Option NetErr
  shutdownResult : Option NetErr
  listenCalls : Nat
  trace : List Effect

/-- A process environment before the program has done anything. -/
def World.init (listenResult : Nat → Except NetErr Listener) (serveResult : Option NetErr)
    (shutdownResult : Option NetErr) : World :=
  { listenResult := listenResult, serveResult := serveResult,
    shutdownResult := shutdownResult, listenCalls := 0, trace := [] }

/-- Record an effect. -/
def World.emit (w : World) (e : Effect) : World := { w with trace := w.trace ++ [e] }

/-- Model of `net.Listen(network, addr)`. -/
def netListen (w : World) (network addr : String) : Except NetErr Listener × World :=
  (w.listenResult w.listenCalls,
   { w with listenCalls := w.listenCalls + 1, trace := w.trace ++ [Effect.listen network addr] })

/-- Model of `logger.Info(msg, ...)` in a `main` function or hook. -/
def World.Info (w : World) (msg : String) : World := w.emit (Effect.log ⟨Level.info, msg⟩)

/-- Model of `logger.Error(msg, ...)` in a `main` function or hook. -/
def World.Error (w : World) (msg : String) : World := w.emit (Effect.log ⟨Level.error, msg⟩)

/-- Model of `srv.Serve(ln)` called in the current goroutine. -/
def srvServe (w : World) (ln : Listener) : Option NetErr × World :=
  (w.serveResult, w.emit (Effect.serve ln))

/-- Model of `os.Exit(code)`: the process ends; nothing runs after it. -/
def osExit (w : World) (code : Int) : World := w.emit (Effect.exit code)

/-- The log records among the effects. -/
def logsOf : List Effect → List LogEvent
  | [] => []
  | Effect.log e :: rest => e :: logsOf rest
  | _ :: rest => logsOf rest

/-- Whether `srv.Serve` was started, in the goroutine of the caller or in a
new one. -/
def served : List Effect → Bool
  | [] => false
  | Effect.serve _ :: _ => true
  | Effect.goServe _ :: _ => true
  | _ :: rest => served rest

/-- The argument of `os.Exit`, if the process exited through it. -/
def exitCode : List Effect → Option Int
  | [] => none
  | Effect.exit c :: _ => some c
  | _ :: rest => exitCode rest

/-- Exit status seen by the parent process: the low eight bits of the
argument of `os.Exit`. -/
def exitStatus (code : Int) : Int := code % 256

/-! ## Go maps -/

/-- Assignment `m[k] = v` on a Go map, kept as a list of bindings with one
binding per key. -/
def goMapSet {V : Type} : List (List Char × V) → List Char → V → List (List Char × V)
  | [], k, v => [(k, v)]
  | (k', v') :: rest, k, v =>
    if k' = k then (k, v) :: rest else (k', v') :: goMapSet rest k v

/-! ## The programs -/

namespace v1

/-- The default mux after `http.Handle("/echo", handler)` in `main`. -/
def mux : Except String (http.ServeMux Handler) :=
  http.NewServeMux.Handle echoPattern handler

end v1

namespace v3

/-- The default mux after `RegisterHandler`: `http.Handle("/echo", h)`. -/
def RegisterHandler (h : Handler) : Except String (http.ServeMux Handler) :=
  http.NewServeMux.Handle echoPattern h

/-- The default mux of the application: `RegisterHandler` receives the handler
that `NewHandler` provides. -/
def mux : Except String (http.ServeMux Handler) := RegisterHandler NewHandler

end v3

namespace all_in_one

/-- The default mux after the two `http.Handle` calls of `main`. -/
def mux : Except String (http.ServeMux Handler) := do
  let m1 ← http.NewServeMux.Handle echoPattern echoHandler
  m1.Handle helloPattern helloHandler

/-- The function `main` of `tutorial/all_in_one/main.go`. -/
def main (w : World) : World :=
  match mux with
  | Except.error msg => w.emit (Effect.panic msg)
  | Except.ok _ =>
    match netListen w "tcp" ":8080" with
    | (Except.error _, w1) => osExit (w1.Error "Failed to listen") (-1)
    | (Except.ok ln, w1) =>
      let w2 := w1.Info "Starting HTTP server"
      match srvServe w2 ln with
      | (some _, w3) => osExit (w3.Error "Failed to start HTTP server") (-1)
      | (none, w3) => w3

end all_in_one

namespace manual_di

/-- `NewServeMux(handlers)`: a new mux with every binding of the map
registered. `handlers` lists the bindings in the order in which
`range handlers` yields them, which Go leaves unspecified. -/
def NewServeMux {H : Type} (handlers : List (List Char × H)) : Except String (http.ServeMux H) :=
  handlers.foldlM (fun mux e => mux.Handle e.1 e.2) http.NewServeMux

/-- The server built by `NewHTTPServer(logger, mux)`. -/
structure Server (H : Type) where
  Addr : String
  Handler : http.ServeMux H

/-- `NewHTTPServer(logger, mux)`. -/
def NewHTTPServer {H : Type} (mux : http.ServeMux H) : Server H :=
  { Addr := ":8080", Handler := mux }

/-- The map `handlers` that `main` fills. -/
def handlers : List (List Char × Handler) :=
  goMapSet (goMapSet [] echoPattern EchoHandler.ServeHTTP) helloPattern HelloHandler.ServeHTTP

/-- The function `main` of `tutorial/manual_di/main.go`; `order` is the
iteration order of the map `handlers` inside `NewServeMux`. -/
def main (order : List (List Char × Handler)) (w : World) : World :=
  match NewServeMux order with
  | Except.error msg => w.emit (Effect.panic msg)
  | Except.ok mux =>
    let srv := NewHTTPServer mux
    match netListen w "tcp" srv.Addr with
    | (Except.error _, w1) => osExit w1 (-1)
    | (Except.ok ln, w1) =>
      let w2 := w1.Info "Starting HTTP server"
      match srvServe w2 ln with
      | (some _, w3) => osExit (w3.Error "Failed to start HTTP server") (-1)
      | (none, w3) => w3

end manual_di

namespace fx

/-- A `Route`: an `http.Handler` together with the pattern under which it is
registered. -/
structure Route (H : Type) where
  Pattern : List Char
  ServeHTTP : H

/-- The server built by `NewHTTPServer`. -/
structure Server (H : Type) where
  Addr : String
  Handler : http.ServeMux H

/-- Result of `NewHTTPServer`. -/
structure HTTPServerResult (H : Type) where
  Server : Server H
  Mux : http.ServeMux H

/-- An `fx.Hook`. Each callback returns its error (`none` for nil). -/
structure Hook where
  OnStart : World → Option NetErr × World
  OnStop : World → Option NetErr × World

/-- The `OnStart` callback that `NewHTTPServer` registers. -/
def OnStart (addr : String) (w : World) : Option NetErr × World :=
  match netListen w "tcp" addr with
  | (Except.error err, w1) => (some err, w1)
  | (Except.ok ln, w1) =>
    let w2 := w1.Info "Starting HTTP server"
    let w3 := w2.emit (Effect.goServe ln)
    (none, w3)

/-- The `OnStop` callback that `NewHTTPServer` registers: `srv.Shutdown(ctx)`. -/
def OnStop (w : World) : Option NetErr × World :=
  (w.shutdownResult, w.emit Effect.shutdown)

/-- The mux that `NewHTTPServer` builds: every route registered in the order
of `p.Routes`. -/
def NewHTTPServer.mux {H : Type} (routes : List (Route H)) : Except String (http.ServeMux H) :=
  routes.foldlM (fun mux route => mux.Handle route.Pattern route.ServeHTTP) http.NewServeMux

/-- `NewHTTPServer(p)`: the result and the hook appended to the lifecycle.
`routes` is `p.Routes`, in the order in which Fx fills the value group. -/
def NewHTTPServer {H : Type} (routes : List (Route H)) :
    Except String (HTTPServerResult H × Hook) :=
  match NewHTTPServer.mux routes with
  | Except.error msg => Except.error msg
  | Except.ok mux =>
    let srv : Server H := { Addr := ":8080", Handler := mux }
    Except.ok ({ Server := srv, Mux := mux }, { OnStart := OnStart srv.Addr, OnStop := OnStop })

/-- The pattern and handler that `NewHTTPServer` passes to `mux.Handle` for a
route. -/
def Route.entry {H : Type} (route : Route H) : List Char × H := (route.Pattern, route.ServeHTTP)

/-- The mux that serves the requests of the server built by `NewHTTPServer`:
`srv.Handler`. -/
def serverMux {H : Type} (routes : List (Route H)) : Except String (http.ServeMux H) :=
  match NewHTTPServer routes with
  | Except.error msg => Except.error msg
  | Except.ok (res, _) => Except.ok res.Server.Handler

/-- The routes that `main` provides: `AsRoute(NewEchoHandler)` and
`AsRoute(NewHelloHandler)`. -/
def routes : List (Route Handler) :=
  [{ Pattern := EchoHandler.Pattern, ServeHTTP := EchoHandler.ServeHTTP },
   { Pattern := HelloHandler.Pattern, ServeHTTP := HelloHandler.ServeHTTP }]

end fx

/-- The response of a program whose mux is `m` to a request: the server hands
it to the mux; there is no response when building the mux panicked. -/
def respond (m : Except String (http.ServeMux Handler)) (w : ResponseWriter) (r : Request)
    (log : Logger) : Option (ResponseWriter × Logger) :=
  match m with
  | Except.error _ => none
  | Except.ok mux => some (http.serverHandler mux w r log)

/-- Status and body of a response, as the client sees them. -/
def observe (x : Option (ResponseWriter × Logger)) : Option (Nat × List Byte) :=
  x.map (fun p => (p.1.finalStatus, p.1.body))

/-- A pattern that names exactly one path: it is in canonical form (so it
begins with a slash) and does not end in a slash. -/
def exactPattern (p : List Char) : Prop := http.cleanPath p = p ∧ p.getLast? ≠ some '/'

instance (p : List Char) : Decidable (exactPattern p) := by
  unfold exactPattern
  infer_instance

/-- A pattern that the mux reads as literal text and that names exactly one
path: an exact pattern without `{`, space, tab or `%`. -/
def literalPattern (p : List Char) : Prop :=
  exactPattern p ∧ '{' ∉ p ∧ ' ' ∉ p ∧ '\t' ∉ p ∧ '%' ∉ p

instance (p : List Char) : Decidable (literalPattern p) := by
  unfold literalPattern
  infer_instance

/-- Selection for a request by a mux whose construction may have panicked. -/
def dispatch {H : Type} (m : Except String (http.ServeMux H)) (r : Request) :
    Except String (http.Selected H) :=
  match m with
  | Except.error msg => Except.error msg
  | Except.ok mux => Except.ok (mux.Handler r)

/-- Whether a request is answered by the redirect to its canonical path. -/
def redirected (r : Request) : Prop := r.method ≠ "CONNECT" ∧ http.cleanPath r.path ≠ r.path

instance (r : Request) : Decidable (redirected r) := by
  unfold redirected
  infer_instance

/-- The five echo handlers of the repository. -/
def echoHandlers : List Handler :=
  [fx.EchoHandler.ServeHTTP, manual_di.EchoHandler.ServeHTTP, all_in_one.echoHandler,
   v1.handler, v3.NewHandler]

/-- The three hello handlers of the repository. -/
def helloHandlers : List Handler :=
  [fx.HelloHandler.ServeHTTP, manual_di.HelloHandler.ServeHTTP, all_in_one.helloHandler]

/-! ## Theorems -/

/-! ### Response writer and stream copy -/

theorem WriteHeader_finalStatus_of_some (w : ResponseWriter) (code c : Nat)
    (h : w.status = some c) : w.WriteHeader code = w := by
  unfold ResponseWriter.WriteHeader
  rw [h]

theorem Write_status (w : ResponseWriter) (p : List Byte) :
    (w.Write p).1.status = some w.finalStatus := by
  unfold ResponseWriter.Write ResponseWriter.WriteHeader ResponseWriter.finalStatus
  cases hs : w.status <;> cases hf : w.faults with
  | nil => simp [hf, hs]
  | cons f fs => cases f <;> simp [hf, hs]

theorem Write_location (w : ResponseWriter) (p : List Byte) :
    (w.Write p).1.location = w.location := by
  unfold ResponseWriter.Write ResponseWriter.WriteHeader
  cases hs : w.status <;> cases hf : w.faults with
  | nil => simp [hf]
  | cons f fs => cases f <;> simp [hf]

theorem Write_body (w : ResponseWriter) (p : List Byte) :
    ∃ q, q <+: p ∧ (w.Write p).1.body = w.body ++ q ∧
      ((w.Write p).2.2 = none → q = p ∧ (w.Write p).2.1 = p.length) := by
  unfold ResponseWriter.Write ResponseWriter.WriteHeader
  cases hs : w.status <;> cases hf : w.faults with
  | nil => exact ⟨p, List.prefix_refl p, by simp [hf]⟩
  | cons f fs =>
    cases f with
    | none => exact ⟨p, List.prefix_refl p, by simp [hf]⟩
    | some k => exact ⟨p.take k, List.take_prefix k p, by simp [hf]⟩

theorem Write_of_ok (w : ResponseWriter) (p : List Byte) (h : ∀ f ∈ w.faults, f = none) :
    (w.Write p).2.2 = none ∧ (w.Write p).2.1 = p.length ∧ (w.Write p).1.body = w.body ++ p ∧
      (∀ f ∈ (w.Write p).1.faults, f = none) := by
  unfold ResponseWriter.Write ResponseWriter.WriteHeader
  cases hs : w.status <;> cases hf : w.faults with
  | nil => simp [hf]
  | cons f fs =>
    have hf0 : f = none := h f (by simp [hf])
    have hfs : ∀ g ∈ fs, g = none := fun g hg => h g (by simp [hf, hg])
    subst hf0
    simpa [hf] using hfs

theorem Write_fault (w : ResponseWriter) (p : List Byte) (k : Nat) (fs : List (Option Nat))
    (h : w.faults = some k :: fs) :
    (w.Write p).2.2 = some IoErr.write ∧ (w.Write p).1.body = w.body ++ p.take k ∧
      (w.Write p).1.faults = fs := by
  unfold ResponseWriter.Write ResponseWriter.WriteHeader
  cases hs : w.status <;> simp [h]

/-- A copy that meets no failing write and no read error delivers every byte. -/
theorem ioCopy_of_ok (cs : List (List Byte)) :
    ∀ w : ResponseWriter, (∀ f ∈ w.faults, f = none) →
      (ioCopy w cs false).2.2 = none ∧ (ioCopy w cs false).1.body = w.body ++ cs.flatten ∧
        (ioCopy w cs false).1.finalStatus = w.finalStatus := by
  induction cs with
  | nil => intro w _; simp [ioCopy]
  | cons c cs ih =>
    intro w hw
    obtain ⟨h1, h2, h3, h4⟩ := Write_of_ok w c hw
    have hst := Write_status w c
    unfold ioCopy
    by_cases hc : 0 < c.length
    · rw [if_pos hc]
      rcases hW : w.Write c with ⟨w1, nw, e⟩
      rw [hW] at h1 h2 h3 h4 hst
      simp only at h1 h2 h3 h4 hst
      subst h1
      subst h2
      obtain ⟨i1, i2, i3⟩ := ih w1 h4
      simp only [ne_eq, not_true_eq_false, if_false]
      refine ⟨i1, ?_, ?_⟩
      · rw [i2, h3]; simp
      · rw [i3]; simp [ResponseWriter.finalStatus, hst]
    · rw [if_neg hc]
      have hnil : c = [] := by
        cases c with
        | nil => rfl
        | cons a l => simp at hc
      subst hnil
      simpa using ih w hw

/-- Whatever happens, the bytes a copy adds to the response are an initial
part of the request body, and the copy sets no status other than 200. -/
theorem ioCopy_general (cs : List (List Byte)) (fails : Bool) :
    ∀ w : ResponseWriter, ∃ q, q <+: cs.flatten ∧ (ioCopy w cs fails).1.body = w.body ++ q ∧
      (ioCopy w cs fails).1.finalStatus = w.finalStatus ∧
      (ioCopy w cs fails).1.location = w.location := by
  induction cs with
  | nil => intro w; exact ⟨[], by simp [ioCopy]⟩
  | cons c cs ih =>
    intro w
    obtain ⟨q, hq1, hq2, _⟩ := Write_body w c
    have hst := Write_status w c
    have hloc := Write_location w c
    unfold ioCopy
    by_cases hc : 0 < c.length
    · rw [if_pos hc]
      rcases hW : w.Write c with ⟨w1, nw, e⟩
      rw [hW] at hq2 hst hloc
      simp only at hq2 hst hloc
      have hfin : w1.finalStatus = w.finalStatus := by
        simp [ResponseWriter.finalStatus, hst]
      have hpre : q <+: (c :: cs).flatten := by
        obtain ⟨t, ht⟩ := hq1
        exact ⟨t ++ cs.flatten, by simp [← ht]⟩
      cases e with
      | some e => exact ⟨q, hpre, hq2, hfin, hloc⟩
      | none =>
        simp only
        by_cases hn : c.length ≠ nw
        · rw [if_pos hn]
          exact ⟨q, hpre, hq2, hfin, hloc⟩
        · rw [if_neg hn]
          obtain ⟨_, _, _, hfull⟩ := Write_body w c
          rw [hW] at hfull
          obtain ⟨q2, k1, k2, k3, k4⟩ := ih w1
          obtain ⟨q', hq'1, hq'2, hq'3⟩ := Write_body w c
          rw [hW] at hq'2 hq'3
          have hq'p : q' = c := (hq'3 rfl).1
          subst hq'p
          refine ⟨q' ++ q2, ?_, ?_, ?_, ?_⟩
          · obtain ⟨t, ht⟩ := k1
            exact ⟨t, by simp [← ht]⟩
          · simp only at hq'2
            rw [k2, hq'2]; simp
          · rw [k3, hfin]
          · rw [k4, hloc]
    · rw [if_neg hc]
      have hnil : c = [] := by
        cases c with
        | nil => rfl
        | cons a l => simp at hc
      subst hnil
      simpa using ih w

/-! ### Log counting -/

theorem countLevel_Info (lv : Level) (l : Logger) (msg : String) :
    countLevel lv (l.Info msg) = countLevel lv l + (if lv = Level.info then 1 else 0) := by
  cases lv <;> simp [countLevel, Logger.Info, List.countP_append, List.countP_cons]

theorem countLevel_Warn (lv : Level) (l : Logger) (msg : String) :
    countLevel lv (l.Warn msg) = countLevel lv l + (if lv = Level.warn then 1 else 0) := by
  cases lv <;> simp [countLevel, Logger.Warn, List.countP_append, List.countP_cons]

theorem countLevel_Error (lv : Level) (l : Logger) (msg : String) :
    countLevel lv (l.Error msg) = countLevel lv l + (if lv = Level.error then 1 else 0) := by
  cases lv <;> simp [countLevel, Logger.Error, List.countP_append, List.countP_cons]

/-! ### The echo handlers -/

theorem echoBody_of_ok (w : ResponseWriter) (r : Request) (log : Logger)
    (hread : r.body.fails = false) (hw : ∀ f ∈ w.faults, f = none) :
    (echoBody w r log).1.body = w.body ++ r.body.bytes ∧
      (echoBody w r log).1.finalStatus = w.finalStatus ∧ (echoBody w r log).2 = log := by
  obtain ⟨h1, h2, h3⟩ := ioCopy_of_ok r.body.chunks w hw
  unfold echoBody
  rw [hread]
  rcases hC : ioCopy w r.body.chunks false with ⟨w1, n, e⟩
  rw [hC] at h1 h2 h3
  simp only at h1 h2 h3
  subst h1
  exact ⟨h2, h3, rfl⟩

theorem echoBody_of_err (w : ResponseWriter) (r : Request) (log : Logger)
    (herr : (ioCopy w r.body.chunks r.body.fails).2.2 ≠ none) :
    (∃ q, q <+: r.body.bytes ∧ (echoBody w r log).1.body = w.body ++ q) ∧
      (echoBody w r log).1.finalStatus = w.finalStatus ∧
      (echoBody w r log).2 = log.Warn "Failed to handle request" := by
  obtain ⟨q, h1, h2, h3, _⟩ := ioCopy_general r.body.chunks r.body.fails w
  unfold echoBody
  rcases hC : ioCopy w r.body.chunks r.body.fails with ⟨w1, n, e⟩
  rw [hC] at h2 h3 herr
  simp only at h2 h3 herr
  cases e with
  | none => exact absurd rfl herr
  | some e => exact ⟨⟨q, h1, h2⟩, h3, rfl⟩

/-! ### The hello handlers -/

theorem helloBody_of_ok (w : ResponseWriter) (r : Request) (log : Logger)
    (hread : r.body.fails = false) (hw : ∀ f ∈ w.faults, f = none) :
    (helloBody w r log).1.body = w.body ++ (ascii "Hello, " ++ r.body.bytes ++ ascii "\n") ∧
      (helloBody w r log).1.finalStatus = w.finalStatus ∧ (helloBody w r log).2 = log := by
  obtain ⟨h1, _, h3, _⟩ := Write_of_ok w (ascii "Hello, " ++ r.body.bytes ++ ascii "\n") hw
  have hst := Write_status w (ascii "Hello, " ++ r.body.bytes ++ ascii "\n")
  unfold helloBody ioReadAll fmtFprintfHello
  rw [hread]
  simp only [Bool.false_eq_true, if_false]
  rcases hW : w.Write (ascii "Hello, " ++ r.body.bytes ++ ascii "\n") with ⟨w1, n, e⟩
  rw [hW] at h1 h3 hst
  simp only at h1 h3 hst
  subst h1
  exact ⟨h3, by simp [ResponseWriter.finalStatus, hst], rfl⟩

theorem helloBody_of_read_err (w : ResponseWriter) (r : Request) (log : Logger)
    (hread : r.body.fails = true) :
    helloBody w r log =
      (httpError w "Internal server error" StatusInternalServerError,
       log.Error "Failed to read request") := by
  unfold helloBody ioReadAll
  rw [hread]
  rfl

theorem helloBody_of_write_err (w : ResponseWriter) (r : Request) (log : Logger) (k : Nat)
    (fs : List (Option Nat)) (hread : r.body.fails = false) (hw : w.faults = some k :: fs) :
    (helloBody w r log).1.finalStatus = w.finalStatus ∧
      (helloBody w r log).2 = log.Error "Failed to write response" := by
  obtain ⟨h1, _, _⟩ := Write_fault w (ascii "Hello, " ++ r.body.bytes ++ ascii "\n") k fs hw
  have hst := Write_status w (ascii "Hello, " ++ r.body.bytes ++ ascii "\n")
  unfold helloBody ioReadAll fmtFprintfHello
  rw [hread]
  simp only [Bool.false_eq_true, if_false]
  rcases hW : w.Write (ascii "Hello, " ++ r.body.bytes ++ ascii "\n") with ⟨w1, n, e⟩
  rw [hW] at h1 hst
  simp only at h1 hst
  subst h1
  refine ⟨?_, rfl⟩
  simp only [httpError]
  rw [ResponseWriter.finalStatus, Write_status,
    WriteHeader_finalStatus_of_some w1 StatusInternalServerError _ hst]
  simp [ResponseWriter.finalStatus, hst]

theorem httpError_fresh (fs : List (Option Nat)) (msg : String) (code : Nat) :
    (httpError (ResponseWriter.fresh fs) msg code).status = some code ∧
      (httpError (ResponseWriter.fresh fs) msg code).body <+: ascii msg ++ ascii "\n" ∧
      ((∀ f ∈ fs, f = none) →
        (httpError (ResponseWriter.fresh fs) msg code).body = ascii msg ++ ascii "\n") := by
  have hst := Write_status ((ResponseWriter.fresh fs).WriteHeader code) (ascii msg ++ ascii "\n")
  obtain ⟨q, hq1, hq2, _⟩ :=
    Write_body ((ResponseWriter.fresh fs).WriteHeader code) (ascii msg ++ ascii "\n")
  refine ⟨?_, ?_, ?_⟩
  · rw [httpError, hst]; rfl
  · rw [httpError, hq2]; simpa [ResponseWriter.fresh, ResponseWriter.WriteHeader] using hq1
  · intro hok
    obtain ⟨_, _, h3, _⟩ :=
      Write_of_ok ((ResponseWriter.fresh fs).WriteHeader code) (ascii msg ++ ascii "\n")
        (by simpa [ResponseWriter.fresh, ResponseWriter.WriteHeader] using hok)
    rw [httpError, h3]; simp [ResponseWriter.fresh, ResponseWriter.WriteHeader]

/-- C1: for every byte sequence `b`, when the request body is read to EOF without
error and every write to the response succeeds, each of the five echo handlers
leaves a response whose body is exactly `b`, with status 200, and logs neither
a warning nor an error. -/
theorem echo_writes_request_body (b : List Byte) (r : Request) (fs : List (Option Nat))
    (log : Logger) (hb : r.body.bytes = b) (hread : r.body.fails = false)
    (hwrite : ∀ f ∈ fs, f = none) :
    ∀ h ∈ echoHandlers,
      (h (ResponseWriter.fresh fs) r log).1.body = b ∧
      (h (ResponseWriter.fresh fs) r log).1.finalStatus = 200 ∧
      countLevel Level.warn (h (ResponseWriter.fresh fs) r log).2 = countLevel Level.warn log ∧
      countLevel Level.error (h (ResponseWriter.fresh fs) r log).2 =
        countLevel Level.error log := by
  have key : ∀ msg : String,
      (echoBody (ResponseWriter.fresh fs) r (log.Info msg)).1.body = b ∧
      (echoBody (ResponseWriter.fresh fs) r (log.Info msg)).1.finalStatus = 200 ∧
      countLevel Level.warn (echoBody (ResponseWriter.fresh fs) r (log.Info msg)).2 =
        countLevel Level.warn log ∧
      countLevel Level.error (echoBody (ResponseWriter.fresh fs) r (log.Info msg)).2 =
        countLevel Level.error log := by
    intro msg
    obtain ⟨h1, h2, h3⟩ := echoBody_of_ok (ResponseWriter.fresh fs) r (log.Info msg) hread hwrite
    rw [h1, h2, h3, countLevel_Info, countLevel_Info, hb]
    simp [ResponseWriter.fresh, ResponseWriter.finalStatus]
  intro h hh
  simp only [echoHandlers, List.mem_cons, List.mem_singleton, List.mem_nil_iff, or_false] at hh
  rcases hh with rfl | rfl | rfl | rfl | rfl <;> exact key _

/-- Witness of C1 on the body `[104, 105]` delivered in two chunks, for the echo
handler of the fx program. -/
theorem echo_writes_request_body_witness :
    (fx.EchoHandler.ServeHTTP (ResponseWriter.fresh [none])
        ⟨"POST", [], echoPattern, ⟨[[104], [105]], false⟩⟩ []).1.body = [104, 105] ∧
      (fx.EchoHandler.ServeHTTP (ResponseWriter.fresh [none])
        ⟨"POST", [], echoPattern, ⟨[[104], [105]], false⟩⟩ []).1.finalStatus = 200 ∧
      countLevel Level.warn (fx.EchoHandler.ServeHTTP (ResponseWriter.fresh [none])
        ⟨"POST", [], echoPattern, ⟨[[104], [105]], false⟩⟩ []).2 = countLevel Level.warn [] ∧
      countLevel Level.error (fx.EchoHandler.ServeHTTP (ResponseWriter.fresh [none])
        ⟨"POST", [], echoPattern, ⟨[[104], [105]], false⟩⟩ []).2 = countLevel Level.error [] :=
  echo_writes_request_body [104, 105] ⟨"POST", [], echoPattern, ⟨[[104], [105]], false⟩⟩ [none] []
    (by decide) (by decide) (by decide) fx.EchoHandler.ServeHTTP (List.mem_cons_self _ _)

/-- C8: whenever the stream copy of an echo handler returns an error, the handler
logs exactly one warning and no error, the response status stays the default
200 (no error status, no error body), and the bytes written to the response
are an initial part of the request body. The handler is a total function, so it
returns normally. -/
theorem echo_copy_failure (r : Request) (fs : List (Option Nat)) (log : Logger)
    (hfail : (ioCopy (ResponseWriter.fresh fs) r.body.chunks r.body.fails).2.2 ≠ none) :
    ∀ h ∈ echoHandlers,
      countLevel Level.warn (h (ResponseWriter.fresh fs) r log).2 = countLevel Level.warn log + 1 ∧
      countLevel Level.error (h (ResponseWriter.fresh fs) r log).2 = countLevel Level.error log ∧
      (h (ResponseWriter.fresh fs) r log).1.finalStatus = 200 ∧
      (h (ResponseWriter.fresh fs) r log).1.body <+: r.body.bytes := by
  have key : ∀ msg : String,
      countLevel Level.warn (echoBody (ResponseWriter.fresh fs) r (log.Info msg)).2 =
        countLevel Level.warn log + 1 ∧
      countLevel Level.error (echoBody (ResponseWriter.fresh fs) r (log.Info msg)).2 =
        countLevel Level.error log ∧
      (echoBody (ResponseWriter.fresh fs) r (log.Info msg)).1.finalStatus = 200 ∧
      (echoBody (ResponseWriter.fresh fs) r (log.Info msg)).1.body <+: r.body.bytes := by
    intro msg
    obtain ⟨⟨q, hq1, hq2⟩, h2, h3⟩ :=
      echoBody_of_err (ResponseWriter.fresh fs) r (log.Info msg) hfail
    rw [hq2, h2, h3, countLevel_Warn, countLevel_Warn, countLevel_Info, countLevel_Info]
    simpa [ResponseWriter.fresh, ResponseWriter.finalStatus] using hq1
  intro h hh
  simp only [echoHandlers, List.mem_cons, List.mem_singleton, List.mem_nil_iff, or_false] at hh
  rcases hh with rfl | rfl | rfl | rfl | rfl <;> exact key _

/-- Witness of C8: the second write accepts one byte of two and fails, for the
echo handler of the manual_di program. -/
theorem echo_copy_failure_witness :
    countLevel Level.warn (manual_di.EchoHandler.ServeHTTP (ResponseWriter.fresh [none, some 1])
        ⟨"POST", [], echoPattern, ⟨[[1], [2, 3], [4]], false⟩⟩ []).2
        = countLevel Level.warn [] + 1 ∧
      countLevel Level.error (manual_di.EchoHandler.ServeHTTP
        (ResponseWriter.fresh [none, some 1])
        ⟨"POST", [], echoPattern, ⟨[[1], [2, 3], [4]], false⟩⟩ []).2
        = countLevel Level.error [] ∧
      (manual_di.EchoHandler.ServeHTTP (ResponseWriter.fresh [none, some 1])
        ⟨"POST", [], echoPattern, ⟨[[1], [2, 3], [4]], false⟩⟩ []).1.finalStatus = 200 ∧
      (manual_di.EchoHandler.ServeHTTP (ResponseWriter.fresh [none, some 1])
        ⟨"POST", [], echoPattern, ⟨[[1], [2, 3], [4]], false⟩⟩ []).1.body
        <+: (Body.mk [[1], [2, 3], [4]] false).bytes :=
  echo_copy_failure ⟨"POST", [], echoPattern, ⟨[[1], [2, 3], [4]], false⟩⟩ [none, some 1] []
    (by decide) manual_di.EchoHandler.ServeHTTP
    (List.mem_cons_of_mem _ (List.mem_cons_self _ _))

/-- C2: for every payload `s` (in particular every text without control
characters), when the body is read without error and the write succeeds, each
hello handler leaves a response whose body is exactly `"Hello, "`, then `s`,
then one newline, with status 200, and logs no error. -/
theorem hello_writes_greeting (s : List Byte) (r : Request) (fs : List (Option Nat))
    (log : Logger) (hs : r.body.bytes = s) (hread : r.body.fails = false)
    (hwrite : ∀ f ∈ fs, f = none) :
    ∀ h ∈ helloHandlers,
      (h (ResponseWriter.fresh fs) r log).1.body = ascii "Hello, " ++ s ++ ascii "\n" ∧
      (h (ResponseWriter.fresh fs) r log).1.finalStatus = 200 ∧
      countLevel Level.error (h (ResponseWriter.fresh fs) r log).2 =
        countLevel Level.error log := by
  have key : ∀ msg : String,
      (helloBody (ResponseWriter.fresh fs) r (log.Info msg)).1.body =
        ascii "Hello, " ++ s ++ ascii "\n" ∧
      (helloBody (ResponseWriter.fresh fs) r (log.Info msg)).1.finalStatus = 200 ∧
      countLevel Level.error (helloBody (ResponseWriter.fresh fs) r (log.Info msg)).2 =
        countLevel Level.error log := by
    intro msg
    obtain ⟨h1, h2, h3⟩ := helloBody_of_ok (ResponseWriter.fresh fs) r (log.Info msg) hread hwrite
    rw [h1, h2, h3, countLevel_Info, hs]
    simp [ResponseWriter.fresh, ResponseWriter.finalStatus]
  intro h hh
  simp only [helloHandlers, List.mem_cons, List.mem_singleton, List.mem_nil_iff, or_false] at hh
  rcases hh with rfl | rfl | rfl <;> exact key _

/-- Witness of C2 on the payload `"world"`, for the hello handler of the fx
program. -/
theorem hello_writes_greeting_witness :
    (fx.HelloHandler.ServeHTTP (ResponseWriter.fresh [])
        ⟨"POST", [], helloPattern, ⟨[ascii "world"], false⟩⟩ []).1.body
        = ascii "Hello, " ++ ascii "world" ++ ascii "\n" ∧
      (fx.HelloHandler.ServeHTTP (ResponseWriter.fresh [])
        ⟨"POST", [], helloPattern, ⟨[ascii "world"], false⟩⟩ []).1.finalStatus = 200 ∧
      countLevel Level.error (fx.HelloHandler.ServeHTTP (ResponseWriter.fresh [])
        ⟨"POST", [], helloPattern, ⟨[ascii "world"], false⟩⟩ []).2
        = countLevel Level.error [] :=
  hello_writes_greeting (ascii "world") ⟨"POST", [], helloPattern, ⟨[ascii "world"], false⟩⟩ [] []
    (by decide) (by decide) (by decide) fx.HelloHandler.ServeHTTP (List.mem_cons_self _ _)

/-! ### Registration on a mux -/

section Mux

variable {H : Type}

theorem lookup_iff_mem (l : List (List Char × H)) (nd : (l.map Prod.fst).Nodup)
    (k : List Char) (b : H) : l.lookup k = some b ↔ (k, b) ∈ l := by
  induction l with
  | nil => simp
  | cons x xs ih =>
    obtain ⟨k', b'⟩ := x
    simp only [List.map_cons, List.nodup_cons, List.mem_map, not_exists, not_and] at nd
    rw [List.lookup_cons]
    by_cases hk : k = k'
    · subst hk
      simp only [beq_self_eq_true, List.mem_cons, Prod.mk.injEq, true_and, Option.some.injEq]
      constructor
      · intro h; exact Or.inl h.symm
      · rintro (h | h)
        · exact h.symm
        · exact absurd rfl (nd.1 (k, b) h)
    · have hne : (k == k') = false := by simpa using hk
      rw [hne]
      simp only [List.mem_cons, Prod.mk.injEq, hk, false_and, false_or]
      exact ih nd.2

theorem lookup_perm {l₁ l₂ : List (List Char × H)} (hp : l₁.Perm l₂)
    (nd : (l₁.map Prod.fst).Nodup) (k : List Char) : l₁.lookup k = l₂.lookup k := by
  have nd2 : (l₂.map Prod.fst).Nodup := (hp.map Prod.fst).nodup_iff.mp nd
  apply Option.ext
  intro b
  simp only [Option.mem_def]
  rw [lookup_iff_mem l₁ nd, lookup_iff_mem l₂ nd2]
  exact hp.mem_iff

theorem lookup_none_of_not_mem (l : List (List Char × H)) (k : List Char)
    (h : k ∉ l.map Prod.fst) : l.lookup k = none := by
  rw [List.lookup_eq_none_iff]
  intro p hp
  have : k ≠ p.1 := fun e => h (by rw [e]; exact List.mem_map_of_mem Prod.fst hp)
  simpa using this

theorem mem_keys_of_lookup_isSome (l : List (List Char × H)) (k : List Char)
    (h : (l.lookup k).isSome) : k ∈ l.map Prod.fst := by
  rw [List.lookup_isSome_iff] at h
  obtain ⟨p, hp, hk⟩ := h
  have : k = p.1 := by simpa using hk
  rw [this]
  exact List.mem_map_of_mem Prod.fst hp

/-- The registration loop shared by `NewServeMux` and `NewHTTPServer`. -/
theorem Handle_ok (mux : http.ServeMux H) (p : List Char) (h : H) (hp : p ≠ [])
    (hl : mux.m.lookup p = none) :
    mux.Handle p h = Except.ok
      { m := (p, h) :: mux.m
        es := if p.getLast? = some '/' then http.appendSorted mux.es (p, h) else mux.es
        hosts := if p.head? = some '/' then mux.hosts else true } := by
  unfold http.ServeMux.Handle
  simp [hp, hl]

theorem Handle_m (mux mux1 : http.ServeMux H) (p : List Char) (h : H)
    (hok : mux.Handle p h = Except.ok mux1) : mux1.m = (p, h) :: mux.m := by
  unfold http.ServeMux.Handle at hok
  split at hok
  · cases hok
  · split at hok
    · cases hok
    · cases hok; rfl

theorem Handle_conflict (mux : http.ServeMux H) (p : List Char) (h : H)
    (hl : (mux.m.lookup p).isSome) : ∃ msg, mux.Handle p h = Except.error msg := by
  unfold http.ServeMux.Handle
  by_cases hp : p = []
  · exact ⟨_, by rw [if_pos hp]⟩
  · exact ⟨_, by rw [if_neg hp, if_pos hl]⟩

theorem register_ok (entries : List (List Char × H)) :
    ∀ mux0 : http.ServeMux H, (∀ e ∈ entries, e.1 ≠ []) → (entries.map Prod.fst).Nodup →
      (∀ e ∈ entries, mux0.m.lookup e.1 = none) →
      entries.foldlM (fun mux e => mux.Handle e.1 e.2) mux0 = Except.ok
        { m := entries.reverse ++ mux0.m
          es := (entries.filter (fun e => decide (e.1.getLast? = some '/'))).foldl
                  http.appendSorted mux0.es
          hosts := mux0.hosts || entries.any (fun e => decide (e.1.head? ≠ some '/')) } := by
  induction entries with
  | nil => intro mux0 _ _ _; simp [pure, Except.pure]
  | cons x xs ih =>
    intro mux0 hne nd hdis
    simp only [List.map_cons, List.nodup_cons] at nd
    rw [List.foldlM_cons, Handle_ok mux0 x.1 x.2 (hne x (List.mem_cons_self _ _))
      (hdis x (List.mem_cons_self _ _))]
    simp only [bind, Except.bind]
    rw [ih _ (fun e he => hne e (List.mem_cons_of_mem _ he)) nd.2]
    · by_cases h1 : x.1.getLast? = some '/' <;> by_cases h2 : x.1.head? = some '/' <;>
        simp [h1, h2, List.filter_cons, Bool.or_assoc]
    · intro e he
      have hxe : e.1 ≠ x.1 := fun heq => nd.1 (by rw [← heq]; exact List.mem_map_of_mem Prod.fst he)
      rw [List.lookup_cons]
      have : (e.1 == x.1) = false := by simpa using hxe
      rw [this]
      exact hdis e (List.mem_cons_of_mem _ he)

theorem register_conflict (entries : List (List Char × H)) :
    ∀ mux0 : http.ServeMux H, (∃ e ∈ entries, (mux0.m.lookup e.1).isSome) →
      ∃ msg, entries.foldlM (fun mux e => mux.Handle e.1 e.2) mux0 = Except.error msg := by
  induction entries with
  | nil => intro mux0 h; obtain ⟨e, he, _⟩ := h; simp at he
  | cons x xs ih =>
    intro mux0 h
    rw [List.foldlM_cons]
    cases hH : mux0.Handle x.1 x.2 with
    | error msg => exact ⟨msg, rfl⟩
    | ok mux1 =>
      simp only [bind, Except.bind]
      apply ih
      obtain ⟨e, he, hs⟩ := h
      rcases List.mem_cons.mp he with rfl | he'
      · obtain ⟨msg, hmsg⟩ := Handle_conflict mux0 e.1 e.2 hs
        rw [hmsg] at hH
        cases hH
      · refine ⟨e, he', ?_⟩
        rw [Handle_m mux0 mux1 x.1 x.2 hH, List.lookup_cons]
        split
        · rfl
        · exact hs

/-- Registering a list in which some pattern occurs twice panics. -/
theorem register_duplicate (entries : List (List Char × H)) :
    ∀ mux0 : http.ServeMux H, ¬ (entries.map Prod.fst).Nodup →
      ∃ msg, entries.foldlM (fun mux e => mux.Handle e.1 e.2) mux0 = Except.error msg := by
  induction entries with
  | nil => intro mux0 h; simp at h
  | cons x xs ih =>
    intro mux0 h
    rw [List.foldlM_cons]
    cases hH : mux0.Handle x.1 x.2 with
    | error msg => exact ⟨msg, rfl⟩
    | ok mux1 =>
      simp only [bind, Except.bind]
      by_cases hx : x.1 ∈ xs.map Prod.fst
      · apply register_conflict
        obtain ⟨e, he, hxe⟩ := List.mem_map.mp hx
        refine ⟨e, he, ?_⟩
        rw [Handle_m mux0 mux1 x.1 x.2 hH, hxe, List.lookup_cons, beq_self_eq_true]
        rfl
      · apply ih
        intro hnd
        exact h (by simp only [List.map_cons, List.nodup_cons]; exact ⟨hx, hnd⟩)

theorem register_invalid (entries : List (List Char × H)) :
    ∀ mux0 : http.ServeMux H, (entries.map Prod.fst).Nodup →
      (∀ e ∈ entries, mux0.m.lookup e.1 = none) → (∃ e ∈ entries, e.1 = []) →
      entries.foldlM (fun mux e => mux.Handle e.1 e.2) mux0 =
        Except.error "http: invalid pattern" := by
  induction entries with
  | nil => intro mux0 _ _ h; obtain ⟨e, he, _⟩ := h; simp at he
  | cons x xs ih =>
    intro mux0 nd hdis hex
    simp only [List.map_cons, List.nodup_cons] at nd
    rw [List.foldlM_cons]
    by_cases hx : x.1 = []
    · simp [http.ServeMux.Handle, hx, bind, Except.bind]
    · rw [Handle_ok mux0 x.1 x.2 hx (hdis x (List.mem_cons_self _ _))]
      simp only [bind, Except.bind]
      apply ih _ nd.2
      · intro e he
        have hxe : e.1 ≠ x.1 :=
          fun heq => nd.1 (by rw [← heq]; exact List.mem_map_of_mem Prod.fst he)
        rw [List.lookup_cons]
        have : (e.1 == x.1) = false := by simpa using hxe
        rw [this]
        exact hdis e (List.mem_cons_of_mem _ he)
      · obtain ⟨e, he, hnil⟩ := hex
        rcases List.mem_cons.mp he with rfl | he'
        · exact absurd hnil hx
        · exact ⟨e, he', hnil⟩

/-! ### Subtree entries: order and longest match -/

theorem appendSorted_perm (l : List (List Char × H)) (e : List Char × H) :
    (http.appendSorted l e).Perm (e :: l) := by
  induction l with
  | nil => exact List.Perm.refl _
  | cons x xs ih =>
    unfold http.appendSorted
    split
    · exact List.Perm.refl _
    · exact (List.Perm.cons x ih).trans (List.Perm.swap e x xs)

theorem appendSorted_sorted (l : List (List Char × H)) (e : List Char × H)
    (hs : l.Pairwise (fun a b => b.1.length ≤ a.1.length)) :
    (http.appendSorted l e).Pairwise (fun a b => b.1.length ≤ a.1.length) := by
  induction l with
  | nil => simp [http.appendSorted]
  | cons x xs ih =>
    rw [List.pairwise_cons] at hs
    unfold http.appendSorted
    split
    · rename_i hlt
      rw [List.pairwise_cons]
      refine ⟨?_, List.pairwise_cons.mpr hs⟩
      intro y hy
      rcases List.mem_cons.mp hy with rfl | hy'
      · exact Nat.le_of_lt hlt
      · exact Nat.le_trans (hs.1 y hy') (Nat.le_of_lt hlt)
    · rename_i hnlt
      rw [List.pairwise_cons]
      refine ⟨?_, ih hs.2⟩
      intro y hy
      have hy' : y ∈ e :: xs := (appendSorted_perm xs e).mem_iff.mp hy
      rcases List.mem_cons.mp hy' with rfl | hy''
      · exact Nat.le_of_not_lt hnlt
      · exact hs.1 y hy''

theorem foldl_appendSorted_perm (xs : List (List Char × H)) :
    ∀ acc : List (List Char × H), (xs.foldl http.appendSorted acc).Perm (xs ++ acc) := by
  induction xs with
  | nil => intro acc; exact List.Perm.refl _
  | cons x xs ih =>
    intro acc
    rw [List.foldl_cons]
    refine (ih _).trans ?_
    refine (List.Perm.append_left xs (appendSorted_perm acc x)).trans ?_
    exact (List.perm_middle).trans (List.Perm.refl _)

theorem foldl_appendSorted_sorted (xs : List (List Char × H)) :
    ∀ acc : List (List Char × H), acc.Pairwise (fun a b => b.1.length ≤ a.1.length) →
      (xs.foldl http.appendSorted acc).Pairwise (fun a b => b.1.length ≤ a.1.length) := by
  induction xs with
  | nil => intro acc h; exact h
  | cons x xs ih =>
    intro acc h
    rw [List.foldl_cons]
    exact ih _ (appendSorted_sorted acc x h)

theorem eq_of_key_eq (l : List (List Char × H)) (nd : (l.map Prod.fst).Nodup)
    (a b : List Char × H) (ha : a ∈ l) (hb : b ∈ l) (hk : a.1 = b.1) : a = b := by
  have h1 : l.lookup a.1 = some a.2 := (lookup_iff_mem l nd a.1 a.2).mpr ha
  have h2 : l.lookup b.1 = some b.2 := (lookup_iff_mem l nd b.1 b.2).mpr hb
  rw [hk, h2] at h1
  exact Prod.ext hk (Option.some.inj h1).symm

theorem find_first_sorted (l : List (List Char × H)) (path : List Char)
    (hs : l.Pairwise (fun a b => b.1.length ≤ a.1.length)) (e : List Char × H)
    (hf : l.find? (fun x => x.1.isPrefixOf path) = some e) :
    e ∈ l ∧ e.1 <+: path ∧ ∀ y ∈ l, y.1 <+: path → y.1.length ≤ e.1.length := by
  induction l with
  | nil => simp at hf
  | cons x xs ih =>
    rw [List.pairwise_cons] at hs
    rw [List.find?_cons] at hf
    by_cases hx : x.1.isPrefixOf path = true
    · rw [hx] at hf
      simp only [Option.some.injEq] at hf
      subst hf
      refine ⟨List.mem_cons_self _ _, List.isPrefixOf_iff_prefix.mp hx, ?_⟩
      intro y hy _
      rcases List.mem_cons.mp hy with rfl | hy'
      · exact Nat.le_refl _
      · exact hs.1 y hy'
    · have hx' : x.1.isPrefixOf path = false := (Bool.not_eq_true _).mp hx
      rw [hx'] at hf
      obtain ⟨h1, h2, h3⟩ := ih hs.2 hf
      refine ⟨List.mem_cons_of_mem _ h1, h2, ?_⟩
      intro y hy hyp
      rcases List.mem_cons.mp hy with rfl | hy'
      · exact absurd (List.isPrefixOf_iff_prefix.mpr hyp) hx
      · exact h3 y hy' hyp

theorem find_longest_iff (l : List (List Char × H)) (path : List Char)
    (hs : l.Pairwise (fun a b => b.1.length ≤ a.1.length)) (nd : (l.map Prod.fst).Nodup)
    (e : List Char × H) :
    l.find? (fun x => x.1.isPrefixOf path) = some e ↔
      e ∈ l ∧ e.1 <+: path ∧ ∀ y ∈ l, y.1 <+: path → y.1.length ≤ e.1.length := by
  constructor
  · exact find_first_sorted l path hs e
  · rintro ⟨h1, h2, h3⟩
    cases hf : l.find? (fun x => x.1.isPrefixOf path) with
    | none =>
      rw [List.find?_eq_none] at hf
      exact absurd (List.isPrefixOf_iff_prefix.mpr h2) (hf e h1)
    | some e' =>
      obtain ⟨g1, g2, g3⟩ := find_first_sorted l path hs e' hf
      have hlen : e'.1.length = e.1.length := Nat.le_antisymm (h3 e' g1 g2) (g3 e h1 h2)
      have hpre : e'.1 <+: e.1 := List.prefix_of_prefix_length_le g2 h2 (Nat.le_of_eq hlen)
      have hkey : e'.1 = e.1 := hpre.eq_of_length hlen
      rw [eq_of_key_eq l nd e' e g1 h1 hkey]

/-- The longest-match search does not depend on the order of registration. -/
theorem find_perm (l₁ l₂ : List (List Char × H)) (path : List Char) (hp : l₁.Perm l₂)
    (hs₁ : l₁.Pairwise (fun a b => b.1.length ≤ a.1.length))
    (hs₂ : l₂.Pairwise (fun a b => b.1.length ≤ a.1.length))
    (nd : (l₁.map Prod.fst).Nodup) :
    l₁.find? (fun x => x.1.isPrefixOf path) = l₂.find? (fun x => x.1.isPrefixOf path) := by
  have nd2 : (l₂.map Prod.fst).Nodup := (hp.map Prod.fst).nodup_iff.mp nd
  apply Option.ext
  intro e
  simp only [Option.mem_def]
  rw [find_longest_iff l₁ path hs₁ nd, find_longest_iff l₂ path hs₂ nd2]
  constructor
  · rintro ⟨h1, h2, h3⟩
    exact ⟨hp.mem_iff.mp h1, h2, fun y hy => h3 y (hp.mem_iff.mpr hy)⟩
  · rintro ⟨h1, h2, h3⟩
    exact ⟨hp.mem_iff.mpr h1, h2, fun y hy => h3 y (hp.mem_iff.mp hy)⟩

/-! ### Selection by the mux -/

/-- Selection looks at the mux only through its bindings, its host flag and
the longest-match search. -/
theorem Handler_congr (m₁ m₂ : http.ServeMux H)
    (hm : ∀ k, m₁.m.lookup k = m₂.m.lookup k) (hh : m₁.hosts = m₂.hosts)
    (he : ∀ p, m₁.es.find? (fun x => x.1.isPrefixOf p) = m₂.es.find? (fun x => x.1.isPrefixOf p))
    (r : Request) : m₁.Handler r = m₂.Handler r := by
  simp only [http.ServeMux.Handler, http.ServeMux.redirectToPathSlash,
    http.ServeMux.shouldRedirectRLocked, http.ServeMux.handler, http.ServeMux.match', hm, hh, he]

theorem redirectToPathSlash_exact (mux : http.ServeMux H)
    (hkeys : ∀ k, (mux.m.lookup k).isSome → k.getLast? ≠ some '/') (host path : List Char) :
    mux.redirectToPathSlash host path = none := by
  have h1 : (mux.m.lookup (path ++ ['/'])).isSome = false := by
    cases hc : (mux.m.lookup (path ++ ['/'])).isSome with
    | false => rfl
    | true => exact absurd (by simp) (hkeys _ hc)
  have h2 : (mux.m.lookup (host ++ path ++ ['/'])).isSome = false := by
    cases hc : (mux.m.lookup (host ++ path ++ ['/'])).isSome with
    | false => rfl
    | true => exact absurd (by simp) (hkeys _ hc)
  have h3 : mux.shouldRedirectRLocked host path = false := by
    unfold http.ServeMux.shouldRedirectRLocked
    simp only [h1, h2, Bool.false_eq_true, or_self, if_false]
    split_ifs <;> rfl
  unfold http.ServeMux.redirectToPathSlash
  rw [h3]
  rfl

/-- Selection by a mux that holds only patterns without a trailing slash and
no host-specific pattern. -/
theorem Handler_exact (mux : http.ServeMux H) (hes : mux.es = []) (hhosts : mux.hosts = false)
    (hkeys : ∀ k, (mux.m.lookup k).isSome → k.getLast? ≠ some '/') (r : Request) :
    mux.Handler r =
      if r.method ≠ "CONNECT" ∧ http.cleanPath r.path ≠ r.path then
        http.Selected.redirect (http.urlString (http.cleanPath r.path)) StatusTemporaryRedirect
      else
        match mux.m.lookup r.path with
        | some h => http.Selected.found h r.path
        | none => http.Selected.notFound := by
  have hh : ∀ host path, mux.handler host path =
      match mux.m.lookup path with
      | some h => http.Selected.found h path
      | none => http.Selected.notFound := by
    intro host path
    unfold http.ServeMux.handler http.ServeMux.match'
    rw [hhosts, hes]
    cases mux.m.lookup path <;> simp
  unfold http.ServeMux.Handler
  simp only [redirectToPathSlash_exact mux hkeys, hh]
  by_cases hc : r.method = "CONNECT"
  · simp [hc]
  · by_cases hp : http.cleanPath r.path = r.path
    · simp [hc, hp]
    · simp [hc, hp]

/-! ### Muxes that hold exact patterns only -/

theorem cleanPath_head (p : List Char) : (http.cleanPath p).head? = some '/' := by
  unfold http.cleanPath
  split
  · rfl
  · simp only [http.pathClean]
    split_ifs <;> rfl

theorem exactPattern_ne_nil (p : List Char) (h : exactPattern p) : p ≠ [] := by
  intro hp
  have := h.1
  rw [hp] at this
  exact absurd this (by decide)

theorem exactPattern_head (p : List Char) (h : exactPattern p) : p.head? = some '/' := by
  have := cleanPath_head p
  rwa [h.1] at this

/-- Registering pairwise distinct exact patterns succeeds; the mux then holds
the bindings, no subtree entry and no host-specific pattern. -/
theorem build_exact (entries : List (List Char × H)) (hpat : ∀ e ∈ entries, exactPattern e.1)
    (nd : (entries.map Prod.fst).Nodup) :
    manual_di.NewServeMux entries =
      Except.ok { m := entries.reverse, es := [], hosts := false } := by
  unfold manual_di.NewServeMux
  rw [register_ok entries http.NewServeMux (fun e he => exactPattern_ne_nil e.1 (hpat e he)) nd
    (fun e _ => rfl)]
  have h1 : entries.filter (fun e => decide (e.1.getLast? = some '/')) = [] := by
    rw [List.filter_eq_nil_iff]
    intro e he
    simpa using (hpat e he).2
  have h2 : entries.any (fun e => decide (e.1.head? ≠ some '/')) = false := by
    rw [List.any_eq_false]
    intro e he
    simpa using exactPattern_head e.1 (hpat e he)
  rw [h1, h2]
  simp [http.NewServeMux]

theorem select_exact (entries : List (List Char × H)) (hpat : ∀ e ∈ entries, exactPattern e.1)
    (r : Request) :
    (({ m := entries.reverse, es := [], hosts := false } : http.ServeMux H)).Handler r =
      if redirected r then
        http.Selected.redirect (http.urlString (http.cleanPath r.path)) StatusTemporaryRedirect
      else
        match entries.reverse.lookup r.path with
        | some h => http.Selected.found h r.path
        | none => http.Selected.notFound := by
  apply Handler_exact _ rfl rfl
  intro k hk
  obtain ⟨e, he, hke⟩ := List.mem_map.mp (mem_keys_of_lookup_isSome _ k hk)
  rw [← hke]
  exact (hpat e (List.mem_reverse.mp he)).2

theorem NewHTTPServer_mux_eq (routes : List (fx.Route H)) :
    fx.NewHTTPServer.mux routes = manual_di.NewServeMux (routes.map fx.Route.entry) := by
  unfold fx.NewHTTPServer.mux manual_di.NewServeMux
  generalize (http.NewServeMux : http.ServeMux H) = mux0
  induction routes generalizing mux0 with
  | nil => rfl
  | cons x xs ih =>
    simp only [List.foldlM_cons, List.map_cons, fx.Route.entry]
    cases mux0.Handle x.Pattern x.ServeHTTP with
    | error msg => rfl
    | ok mux1 => exact ih mux1

theorem serverMux_eq (routes : List (fx.Route H)) :
    fx.serverMux routes = manual_di.NewServeMux (routes.map fx.Route.entry) := by
  rw [← NewHTTPServer_mux_eq]
  unfold fx.serverMux fx.NewHTTPServer
  cases fx.NewHTTPServer.mux routes <;> rfl

/-! ### Order of registration -/

theorem any_perm (a b : List (List Char × H)) (hp : a.Perm b) (q : List Char × H → Bool) :
    a.any q = b.any q := by
  rw [Bool.eq_iff_iff, List.any_eq_true, List.any_eq_true]
  constructor
  · rintro ⟨x, hx, hq⟩; exact ⟨x, hp.mem_iff.mp hx, hq⟩
  · rintro ⟨x, hx, hq⟩; exact ⟨x, hp.mem_iff.mpr hx, hq⟩

theorem subtree_entries_facts (a : List (List Char × H)) (nd : (a.map Prod.fst).Nodup) :
    ((a.filter (fun e => decide (e.1.getLast? = some '/'))).foldl http.appendSorted []).Perm
        (a.filter (fun e => decide (e.1.getLast? = some '/'))) ∧
      ((a.filter (fun e => decide (e.1.getLast? = some '/'))).foldl http.appendSorted
        []).Pairwise (fun x y => y.1.length ≤ x.1.length) ∧
      (((a.filter (fun e => decide (e.1.getLast? = some '/'))).foldl http.appendSorted
        []).map Prod.fst).Nodup := by
  have hperm := foldl_appendSorted_perm (a.filter (fun e => decide (e.1.getLast? = some '/'))) []
  rw [List.append_nil] at hperm
  refine ⟨hperm, foldl_appendSorted_sorted _ [] List.Pairwise.nil, ?_⟩
  rw [(hperm.map Prod.fst).nodup_iff]
  exact nd.sublist ((List.filter_sublist a).map Prod.fst)

/-- Registering the same bindings, with pairwise distinct patterns, in another
order selects the same handler for every request, or panics alike. -/
theorem NewServeMux_perm (a b : List (List Char × H)) (hp : a.Perm b)
    (nd : (a.map Prod.fst).Nodup) (r : Request) :
    dispatch (manual_di.NewServeMux a) r = dispatch (manual_di.NewServeMux b) r := by
  have ndb : (b.map Prod.fst).Nodup := (hp.map Prod.fst).nodup_iff.mp nd
  unfold manual_di.NewServeMux
  by_cases hne : ∀ e ∈ a, e.1 ≠ []
  · have hneb : ∀ e ∈ b, e.1 ≠ [] := fun e he => hne e (hp.mem_iff.mpr he)
    rw [register_ok a http.NewServeMux hne nd (fun e _ => rfl),
      register_ok b http.NewServeMux hneb ndb (fun e _ => rfl)]
    unfold dispatch
    simp only [Except.ok.injEq]
    apply Handler_congr
    · intro k
      apply lookup_perm
      · simp only [http.NewServeMux, List.append_nil]
        exact (List.reverse_perm a).trans (hp.trans (List.reverse_perm b).symm)
      · simp only [http.NewServeMux, List.append_nil, List.map_reverse]
        exact List.nodup_reverse.mpr nd
    · simp only [http.NewServeMux, Bool.false_or]
      exact any_perm a b hp _
    · intro path
      obtain ⟨p1, s1, n1⟩ := subtree_entries_facts a nd
      obtain ⟨p2, s2, _⟩ := subtree_entries_facts b ndb
      simp only [http.NewServeMux]
      exact find_perm _ _ path (p1.trans ((hp.filter _).trans p2.symm)) s1 s2 n1
  · have hex : ∃ e ∈ a, e.1 = [] := by
      by_contra hcon
      exact hne (fun e he heq => hcon ⟨e, he, heq⟩)
    have hexb : ∃ e ∈ b, e.1 = [] := by
      obtain ⟨e, he, h0⟩ := hex
      exact ⟨e, hp.mem_iff.mp he, h0⟩
    rw [register_invalid a http.NewServeMux nd (fun e _ => rfl) hex,
      register_invalid b http.NewServeMux ndb (fun e _ => rfl) hexb]

end Mux

/-! ### Dispatch -/

theorem serve_exact (entries : List (List Char × Handler))
    (hpat : ∀ e ∈ entries, exactPattern e.1) (w : ResponseWriter) (r : Request) (log : Logger) :
    (({ m := entries.reverse, es := [], hosts := false } : http.ServeMux Handler)).ServeHTTP
        w r log =
      if r.path = ['*'] then (w.WriteHeader StatusBadRequest, log)
      else if redirected r then
        (http.Redirect w r (http.urlString (http.cleanPath r.path)) StatusTemporaryRedirect, log)
      else
        match entries.reverse.lookup r.path with
        | some h => h w r log
        | none => (http.NotFoundHandler w, log) := by
  unfold http.ServeMux.ServeHTTP
  rw [select_exact entries hpat r]
  by_cases hstar : r.path = ['*']
  · simp only [if_pos hstar]
  · simp only [if_neg hstar]
    by_cases hred : redirected r
    · simp only [if_pos hred]
    · simp only [if_neg hred]
      cases entries.reverse.lookup r.path <;> rfl

theorem Redirect_fresh (fs : List (Option Nat)) (r : Request) (url : List Char) (code : Nat) :
    (http.Redirect (ResponseWriter.fresh fs) r url code).finalStatus = code := by
  unfold http.Redirect
  simp only
  split
  · rw [ResponseWriter.finalStatus, Write_status]
    rfl
  · rfl

theorem lookup_reverse_of_mem (entries : List (List Char × Handler))
    (nd : (entries.map Prod.fst).Nodup) (k : List Char) (h : Handler) (hm : (k, h) ∈ entries) :
    entries.reverse.lookup k = some h := by
  rw [lookup_iff_mem]
  · exact List.mem_reverse.mpr hm
  · rw [List.map_reverse]
    exact List.nodup_reverse.mpr nd

theorem lookup_reverse_of_not_mem (entries : List (List Char × Handler)) (k : List Char)
    (hm : k ∉ entries.map Prod.fst) : entries.reverse.lookup k = none := by
  apply lookup_none_of_not_mem
  rw [List.map_reverse]
  exact fun hk => hm (List.mem_reverse.mp hk)

theorem exactPattern_ne_star (p : List Char) (h : exactPattern p) : p ≠ ['*'] := by
  intro hp
  have hh := exactPattern_head p h
  rw [hp] at hh
  exact absurd hh (by decide)

/-- C4 (amended): for routes with pairwise distinct literal patterns (canonical paths
that begin with a slash, do not end in one and hold no `{`, space, tab or
`%`), the mux built by `NewServeMux` (manual_di) and the one built by
`NewHTTPServer` (fx) are built without panic, and for every request other
than the asterisk form `*`: when the path equals a registered pattern, exactly
the handler registered under it is selected and run; when the path is not a
registered pattern, no registered handler is invoked and the response is 404
when the path is in canonical form (or the method is CONNECT) and a redirect
with status 307 otherwise. -/
theorem dispatch_literal_patterns (routes : List (fx.Route Handler))
    (hpat : ∀ route ∈ routes, literalPattern route.Pattern)
    (nd : (routes.map (fun route => route.Pattern)).Nodup) :
    ∀ m ∈ [manual_di.NewServeMux (routes.map fx.Route.entry), fx.serverMux routes],
      ∃ mux, m = Except.ok mux ∧ ∀ r : Request, r.path ≠ ['*'] →
        (∀ route ∈ routes, route.Pattern = r.path →
          mux.Handler r = http.Selected.found route.ServeHTTP r.path ∧
          ∀ w log, mux.ServeHTTP w r log = route.ServeHTTP w r log) ∧
        (r.path ∉ routes.map (fun route => route.Pattern) →
          (mux.Handler r).invokes = none ∧
          ∀ fs log,
            (mux.ServeHTTP (ResponseWriter.fresh fs) r log).1.finalStatus =
              (if redirected r then StatusTemporaryRedirect else StatusNotFound) ∧
            (mux.ServeHTTP (ResponseWriter.fresh fs) r log).2 = log) := by
  have hpat' : ∀ e ∈ routes.map fx.Route.entry, exactPattern e.1 := by
    intro e he
    obtain ⟨route, hr, rfl⟩ := List.mem_map.mp he
    exact (hpat route hr).1
  have hkeys : (routes.map fx.Route.entry).map Prod.fst = routes.map (fun route => route.Pattern) := by
    rw [List.map_map]; rfl
  have nd' : ((routes.map fx.Route.entry).map Prod.fst).Nodup := by rw [hkeys]; exact nd
  have hbuild := build_exact (routes.map fx.Route.entry) hpat' nd'
  intro m hm
  have hm' : m = manual_di.NewServeMux (routes.map fx.Route.entry) := by
    simp only [List.mem_cons, List.mem_singleton, List.mem_nil_iff, or_false] at hm
    rcases hm with rfl | rfl
    · rfl
    · exact serverMux_eq routes
  refine ⟨_, hm'.trans hbuild, ?_⟩
  intro r hstar
  constructor
  · intro route hr hpr
    have hmem : (r.path, route.ServeHTTP) ∈ routes.map fx.Route.entry :=
      List.mem_map.mpr ⟨route, hr, by rw [← hpr]; rfl⟩
    have hl := lookup_reverse_of_mem _ nd' r.path route.ServeHTTP hmem
    have hnr : ¬ redirected r := by
      intro hred
      exact hred.2 (by rw [← hpr]; exact (hpat route hr).1.1)
    constructor
    · rw [select_exact _ hpat' r, if_neg hnr, hl]
    · intro w log
      rw [serve_exact _ hpat' w r log, if_neg hstar, if_neg hnr, hl]
  · intro hnot
    have hl := lookup_reverse_of_not_mem (routes.map fx.Route.entry) r.path (by rw [hkeys]; exact hnot)
    constructor
    · rw [select_exact _ hpat' r, hl]
      by_cases hred : redirected r
      · rw [if_pos hred]; rfl
      · rw [if_neg hred]; rfl
    · intro fs log
      rw [serve_exact _ hpat' _ r log, if_neg hstar, hl]
      by_cases hred : redirected r
      · simp only [if_pos hred]
        exact ⟨Redirect_fresh fs r _ _, trivial⟩
      · simp only [if_neg hred]
        refine ⟨?_, trivial⟩
        rw [ResponseWriter.finalStatus, http.NotFoundHandler,
          (httpError_fresh fs "404 page not found" StatusNotFound).1]
        rfl

/-- Witness of C4 (amended) on the routes of the fx program and the mux of its
server. -/
theorem dispatch_literal_patterns_witness :
    ∃ mux, fx.serverMux fx.routes = Except.ok mux ∧ ∀ r : Request, r.path ≠ ['*'] →
      (∀ route ∈ fx.routes, route.Pattern = r.path →
        mux.Handler r = http.Selected.found route.ServeHTTP r.path ∧
        ∀ w log, mux.ServeHTTP w r log = route.ServeHTTP w r log) ∧
      (r.path ∉ fx.routes.map (fun route => route.Pattern) →
        (mux.Handler r).invokes = none ∧
        ∀ fs log,
          (mux.ServeHTTP (ResponseWriter.fresh fs) r log).1.finalStatus =
            (if redirected r then StatusTemporaryRedirect else StatusNotFound) ∧
          (mux.ServeHTTP (ResponseWriter.fresh fs) r log).2 = log) :=
  dispatch_literal_patterns fx.routes (by decide) (by decide) (fx.serverMux fx.routes)
    (List.mem_cons_of_mem _ (List.mem_cons_self _ _))

/-- C4 (as stated) fails: on the mux of the manual_di program the path `/a//b` is not
a registered pattern, yet the response is the 307 redirect to `/a/b`, not 404;
on a mux holding the subtree pattern `/`, the path `/x` is not a registered
pattern, yet the handler registered under `/` is invoked; on a mux holding
the host-specific pattern `h/x`, a request to host `h` with path `/x` invokes
that handler; and on a mux holding the pattern `/a//b`, a request whose path
is `/a//b` is redirected and the handler is not invoked. -/
theorem dispatch_not_found_counterexample :
    (∃ mux, manual_di.NewServeMux manual_di.handlers = Except.ok mux ∧
      ['/', 'a', '/', '/', 'b'] ∉ manual_di.handlers.map Prod.fst ∧
      (mux.ServeHTTP (ResponseWriter.fresh [])
        ⟨"GET", [], ['/', 'a', '/', '/', 'b'], ⟨[], false⟩⟩ []).1.finalStatus = 307 ∧
      (mux.ServeHTTP (ResponseWriter.fresh [])
        ⟨"GET", [], ['/', 'a', '/', '/', 'b'], ⟨[], false⟩⟩ []).1.location
          = some ['/', 'a', '/', 'b']) ∧
    (∃ mux, manual_di.NewServeMux [(['/'], all_in_one.echoHandler)] = Except.ok mux ∧
      ['/', 'x'] ∉ [(['/'], all_in_one.echoHandler)].map Prod.fst ∧
      (mux.ServeHTTP (ResponseWriter.fresh [])
        ⟨"POST", [], ['/', 'x'], ⟨[[7]], false⟩⟩ []).1.body = [7] ∧
      (mux.ServeHTTP (ResponseWriter.fresh [])
        ⟨"POST", [], ['/', 'x'], ⟨[[7]], false⟩⟩ []).2
          = [⟨Level.info, "Received request for /echo"⟩]) ∧
    (∃ mux, manual_di.NewServeMux [(['h', '/', 'x'], all_in_one.echoHandler)] = Except.ok mux ∧
      ['/', 'x'] ∉ [(['h', '/', 'x'], all_in_one.echoHandler)].map Prod.fst ∧
      (mux.ServeHTTP (ResponseWriter.fresh [])
        ⟨"POST", ['h'], ['/', 'x'], ⟨[[7]], false⟩⟩ []).1.body = [7] ∧
      (mux.ServeHTTP (ResponseWriter.fresh [])
        ⟨"POST", ['h'], ['/', 'x'], ⟨[[7]], false⟩⟩ []).2
          = [⟨Level.info, "Received request for /echo"⟩]) ∧
    (∃ mux, manual_di.NewServeMux [(['/', 'a', '/', '/', 'b'], all_in_one.echoHandler)]
        = Except.ok mux ∧
      ['/', 'a', '/', '/', 'b'] ∈
        [(['/', 'a', '/', '/', 'b'], all_in_one.echoHandler)].map Prod.fst ∧
      (mux.ServeHTTP (ResponseWriter.fresh [])
        ⟨"POST", [], ['/', 'a', '/', '/', 'b'], ⟨[[7]], false⟩⟩ []).1.finalStatus = 307 ∧
      (mux.ServeHTTP (ResponseWriter.fresh [])
        ⟨"POST", [], ['/', 'a', '/', '/', 'b'], ⟨[[7]], false⟩⟩ []).2 = []) :=
  ⟨⟨_, rfl, by decide, by decide, by decide⟩, ⟨_, rfl, by decide, by decide, by decide⟩,
    ⟨_, rfl, by decide, by decide, by decide⟩, ⟨_, rfl, by decide, by decide, by decide⟩⟩

/-- C10: for routes with pairwise distinct patterns, the handler selected for a
request (a registered handler, a redirect or not-found) does not depend on the
order of registration: neither on the order of the `Routes` list given to fx
`NewHTTPServer`, nor on the order in which manual_di `NewServeMux` iterates
over the map `handlers`. (A set of routes on which registration panics does so
in every order.) -/
theorem dispatch_order_independent {H : Type} (ra rb : List (fx.Route H))
    (a b : List (List Char × H)) (hr : ra.Perm rb)
    (ndr : (ra.map (fun route => route.Pattern)).Nodup) (hm : a.Perm b)
    (ndm : (a.map Prod.fst).Nodup) (r : Request) :
    dispatch (fx.serverMux ra) r = dispatch (fx.serverMux rb) r ∧
      dispatch (manual_di.NewServeMux a) r = dispatch (manual_di.NewServeMux b) r := by
  refine ⟨?_, NewServeMux_perm a b hm ndm r⟩
  rw [serverMux_eq, serverMux_eq]
  apply NewServeMux_perm _ _ (hr.map _)
  rw [List.map_map]
  exact ndr

/-- Witness of C10: the two routes of the fx program and the two bindings of the
manual_di program, in both orders, for a request to `/hello`. -/
theorem dispatch_order_independent_witness :
    dispatch (fx.serverMux fx.routes) ⟨"POST", [], helloPattern, ⟨[], false⟩⟩ =
        dispatch (fx.serverMux fx.routes.reverse) ⟨"POST", [], helloPattern, ⟨[], false⟩⟩ ∧
      dispatch (manual_di.NewServeMux manual_di.handlers)
          ⟨"POST", [], helloPattern, ⟨[], false⟩⟩ =
        dispatch (manual_di.NewServeMux manual_di.handlers.reverse)
          ⟨"POST", [], helloPattern, ⟨[], false⟩⟩ :=
  dispatch_order_independent fx.routes fx.routes.reverse manual_di.handlers
    manual_di.handlers.reverse (List.reverse_perm fx.routes).symm (by decide)
    (List.reverse_perm manual_di.handlers).symm (by decide) _

/-! ### Duplicate patterns -/

theorem goMapSet_mem {V : Type} (m : List (List Char × V)) (k : List Char) (v : V) :
    (k, v) ∈ goMapSet m k v := by
  induction m with
  | nil => simp [goMapSet]
  | cons x xs ih =>
    obtain ⟨k', v'⟩ := x
    unfold goMapSet
    split
    · exact List.mem_cons_self _ _
    · exact List.mem_cons_of_mem _ ih

theorem goMapSet_sub {V : Type} (m : List (List Char × V)) (k : List Char) (v : V) :
    ∀ e ∈ goMapSet m k v, e = (k, v) ∨ e ∈ m := by
  induction m with
  | nil => intro e he; simp [goMapSet] at he; exact Or.inl he
  | cons x xs ih =>
    obtain ⟨k', v'⟩ := x
    intro e he
    unfold goMapSet at he
    split at he
    · rcases List.mem_cons.mp he with h | h
      · exact Or.inl h
      · exact Or.inr (List.mem_cons_of_mem _ h)
    · rcases List.mem_cons.mp he with h | h
      · exact Or.inr (by rw [h]; exact List.mem_cons_self _ _)
      · rcases ih e h with h' | h'
        · exact Or.inl h'
        · exact Or.inr (List.mem_cons_of_mem _ h')

theorem goMapSet_nodup {V : Type} (m : List (List Char × V)) (k : List Char) (v : V)
    (nd : (m.map Prod.fst).Nodup) : ((goMapSet m k v).map Prod.fst).Nodup := by
  induction m with
  | nil => simp [goMapSet]
  | cons x xs ih =>
    obtain ⟨k', v'⟩ := x
    simp only [List.map_cons, List.nodup_cons] at nd
    unfold goMapSet
    split
    · rename_i hk
      simp only [List.map_cons, List.nodup_cons]
      exact ⟨by rw [← hk]; exact nd.1, nd.2⟩
    · rename_i hk
      simp only [List.map_cons, List.nodup_cons]
      refine ⟨?_, ih nd.2⟩
      intro hmem
      obtain ⟨e, he, hek⟩ := List.mem_map.mp hmem
      rcases goMapSet_sub xs k v e he with h | h
      · rw [h] at hek
        exact hk hek.symm
      · exact nd.1 (by rw [← hek]; exact List.mem_map_of_mem Prod.fst h)

/-- C5 (amended): when the `Routes` list given to fx `NewHTTPServer` holds two routes
with the same pattern, `mux.Handle` panics and no server is built; in
manual_di the map `handlers` keeps one binding per key, so a second
assignment to a key replaces the first before anything is registered, and
after `NewServeMux` a request to that (exact) pattern selects the handler
assigned last, whatever the iteration order of the map. -/
theorem duplicate_pattern_policy {H : Type} (routes : List (fx.Route H))
    (hdup : ¬ (routes.map (fun route => route.Pattern)).Nodup)
    (m order : List (List Char × H)) (k : List Char) (h₁ h₂ : H)
    (nd : (m.map Prod.fst).Nodup) (hpat : ∀ e ∈ m, exactPattern e.1) (hk : exactPattern k)
    (hord : order.Perm (goMapSet (goMapSet m k h₁) k h₂))
    (method : String) (host : List Char) (body : Body) :
    (∃ msg, fx.NewHTTPServer routes = Except.error msg) ∧
      dispatch (manual_di.NewServeMux order) ⟨method, host, k, body⟩ =
        Except.ok (http.Selected.found h₂ k) := by
  constructor
  · have hd : ¬ ((routes.map fx.Route.entry).map Prod.fst).Nodup := by
      rw [List.map_map]; exact hdup
    obtain ⟨msg, hmsg⟩ := register_duplicate (routes.map fx.Route.entry) http.NewServeMux hd
    have hmux : fx.NewHTTPServer.mux routes = Except.error msg := by
      rw [NewHTTPServer_mux_eq]; exact hmsg
    exact ⟨msg, by unfold fx.NewHTTPServer; rw [hmux]⟩
  · have nd2 := goMapSet_nodup _ k h₂ (goMapSet_nodup m k h₁ nd)
    have ndo : (order.map Prod.fst).Nodup := (hord.map Prod.fst).nodup_iff.mpr nd2
    have hpo : ∀ e ∈ order, exactPattern e.1 := by
      intro e he
      rcases goMapSet_sub _ k h₂ e (hord.mem_iff.mp he) with h | h
      · rw [h]; exact hk
      · rcases goMapSet_sub m k h₁ e h with h' | h'
        · rw [h']; exact hk
        · exact hpat e h'
    have hmem : (k, h₂) ∈ order := hord.mem_iff.mpr (goMapSet_mem _ k h₂)
    have hl : order.reverse.lookup k = some h₂ := by
      rw [lookup_iff_mem]
      · exact List.mem_reverse.mpr hmem
      · rw [List.map_reverse]; exact List.nodup_reverse.mpr ndo
    have hnr : ¬ redirected ⟨method, host, k, body⟩ := fun hred => hred.2 hk.1
    rw [build_exact order hpo ndo]
    unfold dispatch
    simp only
    rw [select_exact order hpo, if_neg hnr]
    simp only [hl]

/-- Witness of C5 (amended): the route `/echo` given twice to fx; in manual_di the key
`/echo` assigned twice in the map of the program. -/
theorem duplicate_pattern_policy_witness :
    (∃ msg, fx.NewHTTPServer
        [(⟨echoPattern, 1⟩ : fx.Route Nat), ⟨helloPattern, 2⟩, ⟨echoPattern, 3⟩]
          = Except.error msg) ∧
      dispatch (manual_di.NewServeMux (goMapSet (goMapSet [(helloPattern, 2)] echoPattern 1)
          echoPattern 3)) ⟨"POST", [], echoPattern, ⟨[], false⟩⟩ =
        Except.ok (http.Selected.found 3 echoPattern) :=
  duplicate_pattern_policy [⟨echoPattern, 1⟩, ⟨helloPattern, 2⟩, ⟨echoPattern, 3⟩] (by decide)
    [(helloPattern, 2)] _ echoPattern 1 3 (by decide) (by decide) (by decide)
    (List.Perm.refl _) "POST" [] ⟨[], false⟩

/-- C5 (as stated) fails for fx: a `Routes` list with two routes under `/echo` makes
`NewHTTPServer` panic with "http: multiple registrations for /echo"; nothing
is overwritten and no handler is dispatched to. -/
theorem duplicate_route_counterexample :
    fx.NewHTTPServer
        [(⟨fx.EchoHandler.Pattern, fx.EchoHandler.ServeHTTP⟩ : fx.Route Handler),
          ⟨fx.EchoHandler.Pattern, fx.HelloHandler.ServeHTTP⟩]
        = Except.error "http: multiple registrations for /echo" ∧
      dispatch (fx.serverMux
        [(⟨fx.EchoHandler.Pattern, fx.EchoHandler.ServeHTTP⟩ : fx.Route Handler),
          ⟨fx.EchoHandler.Pattern, fx.HelloHandler.ServeHTTP⟩])
        ⟨"POST", [], echoPattern, ⟨[], false⟩⟩
        = Except.error "http: multiple registrations for /echo" :=
  ⟨rfl, rfl⟩

/-! ### The programs compared -/

theorem echoBody_fst (w : ResponseWriter) (r : Request) (log log' : Logger) :
    (echoBody w r log).1 = (echoBody w r log').1 := by
  unfold echoBody
  rcases ioCopy w r.body.chunks r.body.fails with ⟨w1, n, e⟩
  cases e <;> rfl

theorem helloBody_fst (w : ResponseWriter) (r : Request) (log log' : Logger) :
    (helloBody w r log).1 = (helloBody w r log').1 := by
  unfold helloBody
  rcases ioReadAll r.body with ⟨b, e⟩
  cases e with
  | some e => rfl
  | none =>
    simp only
    rcases fmtFprintfHello w b with ⟨w1, n, e⟩
    cases e <;> rfl

theorem respond_exact (entries : List (List Char × Handler))
    (hpat : ∀ e ∈ entries, exactPattern e.1) (nd : (entries.map Prod.fst).Nodup)
    (w : ResponseWriter) (r : Request) (log : Logger) :
    respond (manual_di.NewServeMux entries) w r log =
      some (if r.method = "OPTIONS" ∧ r.path = ['*'] then (w, log)
        else if r.path = ['*'] then (w.WriteHeader StatusBadRequest, log)
        else if redirected r then
          (http.Redirect w r (http.urlString (http.cleanPath r.path)) StatusTemporaryRedirect,
            log)
        else
          match entries.reverse.lookup r.path with
          | some h => h w r log
          | none => (http.NotFoundHandler w, log)) := by
  rw [build_exact entries hpat nd]
  unfold respond http.serverHandler
  simp only
  rw [serve_exact entries hpat w r log]

theorem lookup_two (hE hH : Handler) (k : List Char) :
    ([(echoPattern, hE), (helloPattern, hH)] : List (List Char × Handler)).lookup k =
      if k = echoPattern then some hE else if k = helloPattern then some hH else none := by
  simp only [List.lookup_cons, List.lookup_nil]
  by_cases h1 : k = echoPattern
  · have b1 : (k == echoPattern) = true := by simpa using h1
    simp only [b1, if_pos h1]
  · have b1 : (k == echoPattern) = false := by simpa using h1
    by_cases h2 : k = helloPattern
    · have b2 : (k == helloPattern) = true := by simpa using h2
      simp only [b1, b2, if_neg h1, if_pos h2]
    · have b2 : (k == helloPattern) = false := by simpa using h2
      simp only [b1, b2, if_neg h1, if_neg h2]

theorem exactPattern_echo : exactPattern echoPattern := by decide

theorem exactPattern_hello : exactPattern helloPattern := by decide

/-- Response of a program that registers an echo and a hello handler, in
either order. -/
theorem respond_two (hE hH : Handler) (order : List (List Char × Handler))
    (hp : order.Perm [(echoPattern, hE), (helloPattern, hH)])
    (w : ResponseWriter) (r : Request) (log : Logger) :
    respond (manual_di.NewServeMux order) w r log =
      some (if r.method = "OPTIONS" ∧ r.path = ['*'] then (w, log)
        else if r.path = ['*'] then (w.WriteHeader StatusBadRequest, log)
        else if redirected r then
          (http.Redirect w r (http.urlString (http.cleanPath r.path)) StatusTemporaryRedirect,
            log)
        else if r.path = echoPattern then hE w r log
        else if r.path = helloPattern then hH w r log
        else (http.NotFoundHandler w, log)) := by
  have nd0 : (([(echoPattern, hE), (helloPattern, hH)] : List (List Char × Handler)).map
      Prod.fst).Nodup := by
    show [echoPattern, helloPattern].Nodup
    decide
  have nd : (order.map Prod.fst).Nodup := (hp.map Prod.fst).nodup_iff.mpr nd0
  have hpat : ∀ e ∈ order, exactPattern e.1 := by
    intro e he
    have he' := hp.mem_iff.mp he
    simp only [List.mem_cons, List.mem_singleton, List.mem_nil_iff, or_false] at he'
    rcases he' with rfl | rfl
    · exact exactPattern_echo
    · exact exactPattern_hello
  rw [respond_exact order hpat nd]
  have hl : order.reverse.lookup r.path =
      ([(echoPattern, hE), (helloPattern, hH)] : List (List Char × Handler)).lookup r.path := by
    apply lookup_perm ((List.reverse_perm order).trans hp)
    rw [List.map_reverse]
    exact List.nodup_reverse.mpr nd
  rw [hl, lookup_two]
  split_ifs <;> rfl

/-- Response of a program that registers an echo handler only. -/
theorem respond_one (hE : Handler) (w : ResponseWriter) (r : Request) (log : Logger) :
    respond (manual_di.NewServeMux [(echoPattern, hE)]) w r log =
      some (if r.method = "OPTIONS" ∧ r.path = ['*'] then (w, log)
        else if r.path = ['*'] then (w.WriteHeader StatusBadRequest, log)
        else if redirected r then
          (http.Redirect w r (http.urlString (http.cleanPath r.path)) StatusTemporaryRedirect,
            log)
        else if r.path = echoPattern then hE w r log
        else (http.NotFoundHandler w, log)) := by
  have hpat : ∀ e ∈ ([(echoPattern, hE)] : List (List Char × Handler)), exactPattern e.1 := by
    intro e he
    simp only [List.mem_singleton] at he
    rw [he]
    exact exactPattern_echo
  have nd0 : (([(echoPattern, hE)] : List (List Char × Handler)).map Prod.fst).Nodup := by
    show [echoPattern].Nodup
    decide
  rw [respond_exact _ hpat nd0]
  simp only [List.reverse_cons, List.reverse_nil, List.nil_append, List.lookup_cons,
    List.lookup_nil]
  by_cases h1 : r.path = echoPattern
  · have b1 : (r.path == echoPattern) = true := by simpa using h1
    simp only [b1, if_pos h1]
  · have b1 : (r.path == echoPattern) = false := by simpa using h1
    simp only [b1, if_neg h1]

theorem not_redirected_of_exact (r : Request) (h : exactPattern r.path) : ¬ redirected r :=
  fun hred => hred.2 h.1

/-- What the all_in_one program answers on its two endpoints: the response of
the stream copy on `/echo`, the response of the greeting code on `/hello`. -/
theorem all_in_one_endpoints (w : ResponseWriter) (r : Request) (log : Logger) :
    (r.path = echoPattern →
      observe (respond all_in_one.mux w r log) =
        some ((echoBody w r log).1.finalStatus, (echoBody w r log).1.body)) ∧
    (r.path = helloPattern →
      observe (respond all_in_one.mux w r log) =
        some ((helloBody w r log).1.finalStatus, (helloBody w r log).1.body)) := by
  have e1 : all_in_one.mux = manual_di.NewServeMux
      [(echoPattern, all_in_one.echoHandler), (helloPattern, all_in_one.helloHandler)] := rfl
  rw [e1, respond_two _ _ _ (List.Perm.refl _)]
  constructor
  · intro h1
    have hnr : ¬ redirected r := not_redirected_of_exact r (by rw [h1]; exact exactPattern_echo)
    have hstar : r.path ≠ ['*'] := by rw [h1]; decide
    have hopt : ¬ (r.method = "OPTIONS" ∧ r.path = ['*']) := fun h => hstar h.2
    simp only [if_neg hopt, if_neg hstar, if_neg hnr, if_pos h1, observe, Option.map_some',
      all_in_one.echoHandler]
    rw [echoBody_fst w r (log.Info "Received request for /echo") log]
  · intro h2
    have hnr : ¬ redirected r := not_redirected_of_exact r (by rw [h2]; exact exactPattern_hello)
    have h1 : r.path ≠ echoPattern := by rw [h2]; decide
    have hstar : r.path ≠ ['*'] := by rw [h2]; decide
    have hopt : ¬ (r.method = "OPTIONS" ∧ r.path = ['*']) := fun h => hstar h.2
    simp only [if_neg hopt, if_neg hstar, if_neg hnr, if_neg h1, if_pos h2, observe,
      Option.map_some', all_in_one.helloHandler]
    rw [helloBody_fst w r (log.Info "Received request for /hello") log]

/-- The tutorial programs agree on every request; so do the two examples; and
the examples agree with the tutorial programs away from `/hello`. -/
theorem programs_agree (order : List (List Char × Handler))
    (rs : List (fx.Route Handler)) (ho : order.Perm manual_di.handlers)
    (hr : rs.Perm fx.routes) (w : ResponseWriter) (r : Request) (log : Logger) :
    observe (respond all_in_one.mux w r log) =
        observe (respond (manual_di.NewServeMux order) w r log) ∧
      observe (respond (manual_di.NewServeMux order) w r log) =
        observe (respond (fx.serverMux rs) w r log) ∧
      observe (respond v1.mux w r log) = observe (respond v3.mux w r log) ∧
      (r.path ≠ helloPattern →
        observe (respond v1.mux w r log) = observe (respond all_in_one.mux w r log)) := by
  have e1 : all_in_one.mux = manual_di.NewServeMux
      [(echoPattern, all_in_one.echoHandler), (helloPattern, all_in_one.helloHandler)] := rfl
  have e2 : v1.mux = manual_di.NewServeMux [(echoPattern, v1.handler)] := rfl
  have e3 : v3.mux = manual_di.NewServeMux [(echoPattern, v3.NewHandler)] := rfl
  have ho' : order.Perm [(echoPattern, manual_di.EchoHandler.ServeHTTP),
      (helloPattern, manual_di.HelloHandler.ServeHTTP)] := ho
  have hr' : (rs.map fx.Route.entry).Perm [(echoPattern, fx.EchoHandler.ServeHTTP),
      (helloPattern, fx.HelloHandler.ServeHTTP)] := hr.map fx.Route.entry
  rw [e1, e2, e3, serverMux_eq, respond_two _ _ _ (List.Perm.refl _), respond_two _ _ _ ho',
    respond_two _ _ _ hr', respond_one, respond_one]
  have hecho : ∀ m m' : String, (echoBody w r (log.Info m)).1 = (echoBody w r (log.Info m')).1 :=
    fun m m' => echoBody_fst w r _ _
  have hhello : ∀ m m' : String,
      (helloBody w r (log.Info m)).1 = (helloBody w r (log.Info m')).1 :=
    fun m m' => helloBody_fst w r _ _
  simp only [observe, Option.map_some', Option.some.injEq]
  by_cases hopt : r.method = "OPTIONS" ∧ r.path = ['*']
  · simp only [if_pos hopt, true_and, implies_true]
  · simp only [if_neg hopt]
    by_cases hstar : r.path = ['*']
    · simp only [if_pos hstar, true_and, implies_true]
    · simp only [if_neg hstar]
      by_cases hred : redirected r
      · simp only [if_pos hred, true_and, implies_true]
      · simp only [if_neg hred]
        by_cases h1 : r.path = echoPattern
        · simp only [if_pos h1]
          refine ⟨?_, ?_, ?_, fun _ => ?_⟩ <;>
            (simp only [all_in_one.echoHandler, manual_di.EchoHandler.ServeHTTP,
              fx.EchoHandler.ServeHTTP, v1.handler, v3.NewHandler]
             try rw [hecho])
        · simp only [if_neg h1]
          by_cases h2 : r.path = helloPattern
          · simp only [if_pos h2]
            refine ⟨?_, ?_, trivial, fun hne => absurd h2 hne⟩ <;>
              (simp only [all_in_one.helloHandler, manual_di.HelloHandler.ServeHTTP,
                fx.HelloHandler.ServeHTTP]
               try rw [hhello])
          · simp only [if_neg h2, true_and, implies_true]

/-- C7 (amended): the three tutorial programs (all_in_one, manual_di, fx) answer
every request with the same status and body, whatever the order in which
manual_di and fx register their routes: on `/echo` it is the response of the
stream copy, on `/hello` the response of the greeting code. Examples v1 and
v3 answer every request alike, and they agree with the tutorial programs on
every request whose path is not `/hello`. -/
theorem programs_same_behaviour (order : List (List Char × Handler))
    (rs : List (fx.Route Handler)) (ho : order.Perm manual_di.handlers)
    (hr : rs.Perm fx.routes) (w : ResponseWriter) (r : Request) (log : Logger) :
    observe (respond all_in_one.mux w r log) =
        observe (respond (manual_di.NewServeMux order) w r log) ∧
      observe (respond (manual_di.NewServeMux order) w r log) =
        observe (respond (fx.serverMux rs) w r log) ∧
      observe (respond v1.mux w r log) = observe (respond v3.mux w r log) ∧
      (r.path ≠ helloPattern →
        observe (respond v1.mux w r log) = observe (respond all_in_one.mux w r log)) ∧
      (r.path = echoPattern →
        observe (respond all_in_one.mux w r log) =
          some ((echoBody w r log).1.finalStatus, (echoBody w r log).1.body)) ∧
      (r.path = helloPattern →
        observe (respond all_in_one.mux w r log) =
          some ((helloBody w r log).1.finalStatus, (helloBody w r log).1.body)) := by
  obtain ⟨a1, a2, a3, a4⟩ := programs_agree order rs ho hr w r log
  exact ⟨a1, a2, a3, a4, (all_in_one_endpoints w r log).1, (all_in_one_endpoints w r log).2⟩

/-- Witness of C7 (amended): the programs as written, on a request to `/echo`. -/
theorem programs_same_behaviour_witness :
    observe (respond all_in_one.mux (ResponseWriter.fresh [])
          ⟨"POST", [], echoPattern, ⟨[ascii "world"], false⟩⟩ []) =
        observe (respond (manual_di.NewServeMux manual_di.handlers) (ResponseWriter.fresh [])
          ⟨"POST", [], echoPattern, ⟨[ascii "world"], false⟩⟩ []) ∧
      observe (respond (manual_di.NewServeMux manual_di.handlers) (ResponseWriter.fresh [])
          ⟨"POST", [], echoPattern, ⟨[ascii "world"], false⟩⟩ []) =
        observe (respond (fx.serverMux fx.routes) (ResponseWriter.fresh [])
          ⟨"POST", [], echoPattern, ⟨[ascii "world"], false⟩⟩ []) ∧
      observe (respond v1.mux (ResponseWriter.fresh [])
          ⟨"POST", [], echoPattern, ⟨[ascii "world"], false⟩⟩ []) =
        observe (respond v3.mux (ResponseWriter.fresh [])
          ⟨"POST", [], echoPattern, ⟨[ascii "world"], false⟩⟩ []) ∧
      ((Request.mk "POST" [] echoPattern ⟨[ascii "world"], false⟩).path ≠ helloPattern →
        observe (respond v1.mux (ResponseWriter.fresh [])
          ⟨"POST", [], echoPattern, ⟨[ascii "world"], false⟩⟩ []) =
        observe (respond all_in_one.mux (ResponseWriter.fresh [])
          ⟨"POST", [], echoPattern, ⟨[ascii "world"], false⟩⟩ [])) ∧
      ((Request.mk "POST" [] echoPattern ⟨[ascii "world"], false⟩).path = echoPattern →
        observe (respond all_in_one.mux (ResponseWriter.fresh [])
          ⟨"POST", [], echoPattern, ⟨[ascii "world"], false⟩⟩ []) =
          some ((echoBody (ResponseWriter.fresh [])
              ⟨"POST", [], echoPattern, ⟨[ascii "world"], false⟩⟩ []).1.finalStatus,
            (echoBody (ResponseWriter.fresh [])
              ⟨"POST", [], echoPattern, ⟨[ascii "world"], false⟩⟩ []).1.body)) ∧
      ((Request.mk "POST" [] echoPattern ⟨[ascii "world"], false⟩).path = helloPattern →
        observe (respond all_in_one.mux (ResponseWriter.fresh [])
          ⟨"POST", [], echoPattern, ⟨[ascii "world"], false⟩⟩ []) =
          some ((helloBody (ResponseWriter.fresh [])
              ⟨"POST", [], echoPattern, ⟨[ascii "world"], false⟩⟩ []).1.finalStatus,
            (helloBody (ResponseWriter.fresh [])
              ⟨"POST", [], echoPattern, ⟨[ascii "world"], false⟩⟩ []).1.body)) :=
  programs_same_behaviour manual_di.handlers fx.routes (List.Perm.refl _) (List.Perm.refl _)
    (ResponseWriter.fresh []) ⟨"POST", [], echoPattern, ⟨[ascii "world"], false⟩⟩ []

/-- C7 (as stated) fails: for `POST /hello` with body `x`, examples v1 and v3 answer
`404 page not found`, while the tutorial programs answer 200 with the
greeting. -/
theorem programs_differ_counterexample :
    observe (respond v1.mux (ResponseWriter.fresh [])
        ⟨"POST", [], helloPattern, ⟨[ascii "x"], false⟩⟩ [])
      = some (404, ascii "404 page not found\n") ∧
    observe (respond v3.mux (ResponseWriter.fresh [])
        ⟨"POST", [], helloPattern, ⟨[ascii "x"], false⟩⟩ [])
      = some (404, ascii "404 page not found\n") ∧
    observe (respond all_in_one.mux (ResponseWriter.fresh [])
        ⟨"POST", [], helloPattern, ⟨[ascii "x"], false⟩⟩ [])
      = some (200, ascii "Hello, x\n") ∧
    observe (respond v1.mux (ResponseWriter.fresh [])
        ⟨"POST", [], helloPattern, ⟨[ascii "x"], false⟩⟩ [])
      ≠ observe (respond all_in_one.mux (ResponseWriter.fresh [])
        ⟨"POST", [], helloPattern, ⟨[ascii "x"], false⟩⟩ []) := by
  decide

/-! ### Failures in the hello handlers -/

/-- When reading the body fails, a hello handler logs one error, answers with
status 500 and writes (as far as the writer accepts it) only the generic
error text, nothing of the greeting. -/
theorem hello_read_failure (r : Request) (fs : List (Option Nat)) (log : Logger)
    (hread : r.body.fails = true) :
    ∀ h ∈ helloHandlers,
      countLevel Level.error (h (ResponseWriter.fresh fs) r log).2 =
        countLevel Level.error log + 1 ∧
      (h (ResponseWriter.fresh fs) r log).1.finalStatus = 500 ∧
      (h (ResponseWriter.fresh fs) r log).1.body <+: ascii "Internal server error\n" ∧
      ((∀ f ∈ fs, f = none) →
        (h (ResponseWriter.fresh fs) r log).1.body = ascii "Internal server error\n") := by
  have key : ∀ msg : String,
      countLevel Level.error (helloBody (ResponseWriter.fresh fs) r (log.Info msg)).2 =
        countLevel Level.error log + 1 ∧
      (helloBody (ResponseWriter.fresh fs) r (log.Info msg)).1.finalStatus = 500 ∧
      (helloBody (ResponseWriter.fresh fs) r (log.Info msg)).1.body <+:
        ascii "Internal server error\n" ∧
      ((∀ f ∈ fs, f = none) →
        (helloBody (ResponseWriter.fresh fs) r (log.Info msg)).1.body =
          ascii "Internal server error\n") := by
    intro msg
    obtain ⟨h1, h2, h3⟩ := httpError_fresh fs "Internal server error" StatusInternalServerError
    rw [helloBody_of_read_err _ r _ hread, countLevel_Error, countLevel_Info]
    refine ⟨by simp, ?_, h2, h3⟩
    rw [ResponseWriter.finalStatus, h1]
    rfl
  intro h hh
  simp only [helloHandlers, List.mem_cons, List.mem_singleton, List.mem_nil_iff, or_false] at hh
  rcases hh with rfl | rfl | rfl <;> exact key _

/-- When writing the greeting fails, a hello handler logs one error, but the
status stays 200: the failed write has already sent the header, and the
`WriteHeader(500)` inside `http.Error` comes too late. -/
theorem hello_write_failure (r : Request) (k : Nat) (fs : List (Option Nat)) (log : Logger)
    (hread : r.body.fails = false) :
    ∀ h ∈ helloHandlers,
      countLevel Level.error (h (ResponseWriter.fresh (some k :: fs)) r log).2 =
        countLevel Level.error log + 1 ∧
      (h (ResponseWriter.fresh (some k :: fs)) r log).1.finalStatus = 200 := by
  have key : ∀ msg : String,
      countLevel Level.error
          (helloBody (ResponseWriter.fresh (some k :: fs)) r (log.Info msg)).2 =
        countLevel Level.error log + 1 ∧
      (helloBody (ResponseWriter.fresh (some k :: fs)) r (log.Info msg)).1.finalStatus = 200 := by
    intro msg
    obtain ⟨h1, h2⟩ :=
      helloBody_of_write_err (ResponseWriter.fresh (some k :: fs)) r (log.Info msg) k fs hread rfl
    rw [h1, h2, countLevel_Error, countLevel_Info]
    exact ⟨by simp, rfl⟩
  intro h hh
  simp only [helloHandlers, List.mem_cons, List.mem_singleton, List.mem_nil_iff, or_false] at hh
  rcases hh with rfl | rfl | rfl <;> exact key _

/-- C3 (the code at the failing input): the body `x` is read without error, the
write of the greeting fails after three bytes and the connection accepts
nothing after that. Each of the three hello handlers logs one error, but the
response keeps status 200, not 500, and its body is the fragment `Hel`. -/
theorem hello_write_failure_at_input :
    (countLevel Level.error (fx.HelloHandler.ServeHTTP (ResponseWriter.fresh [some 3, some 0])
        ⟨"POST", [], helloPattern, ⟨[ascii "x"], false⟩⟩ []).2 = 1 ∧
      (fx.HelloHandler.ServeHTTP (ResponseWriter.fresh [some 3, some 0])
        ⟨"POST", [], helloPattern, ⟨[ascii "x"], false⟩⟩ []).1.finalStatus = 200 ∧
      (fx.HelloHandler.ServeHTTP (ResponseWriter.fresh [some 3, some 0])
        ⟨"POST", [], helloPattern, ⟨[ascii "x"], false⟩⟩ []).1.body
        = ascii "Hel") ∧
    (countLevel Level.error (manual_di.HelloHandler.ServeHTTP (ResponseWriter.fresh [some 3, some 0])
        ⟨"POST", [], helloPattern, ⟨[ascii "x"], false⟩⟩ []).2 = 1 ∧
      (manual_di.HelloHandler.ServeHTTP (ResponseWriter.fresh [some 3, some 0])
        ⟨"POST", [], helloPattern, ⟨[ascii "x"], false⟩⟩ []).1.finalStatus = 200 ∧
      (manual_di.HelloHandler.ServeHTTP (ResponseWriter.fresh [some 3, some 0])
        ⟨"POST", [], helloPattern, ⟨[ascii "x"], false⟩⟩ []).1.body
        = ascii "Hel") ∧
    (countLevel Level.error (all_in_one.helloHandler (ResponseWriter.fresh [some 3, some 0])
        ⟨"POST", [], helloPattern, ⟨[ascii "x"], false⟩⟩ []).2 = 1 ∧
      (all_in_one.helloHandler (ResponseWriter.fresh [some 3, some 0])
        ⟨"POST", [], helloPattern, ⟨[ascii "x"], false⟩⟩ []).1.finalStatus = 200 ∧
      (all_in_one.helloHandler (ResponseWriter.fresh [some 3, some 0])
        ⟨"POST", [], helloPattern, ⟨[ascii "x"], false⟩⟩ []).1.body
        = ascii "Hel") := by
  decide

/-! ### Start-up -/

/-- C6 (the code at the failing input): when `net.Listen` fails, `main` of manual_di
calls `os.Exit(-1)` at once: the exit status is non-zero and `srv.Serve` is
not called, but nothing is logged. `main` of all_in_one logs
"Failed to listen" before it exits. -/
theorem listen_failure_traces (err : NetErr) (s : Option NetErr) :
    (manual_di.main manual_di.handlers (World.init (fun _ => Except.error err) s none)).trace
        = [Effect.listen "tcp" ":8080", Effect.exit (-1)] ∧
      logsOf (manual_di.main manual_di.handlers
        (World.init (fun _ => Except.error err) s none)).trace = [] ∧
      served (manual_di.main manual_di.handlers
        (World.init (fun _ => Except.error err) s none)).trace = false ∧
      exitCode (manual_di.main manual_di.handlers
        (World.init (fun _ => Except.error err) s none)).trace = some (-1) ∧
      (all_in_one.main (World.init (fun _ => Except.error err) s none)).trace
        = [Effect.listen "tcp" ":8080", Effect.log ⟨Level.error, "Failed to listen"⟩,
            Effect.exit (-1)] ∧
      exitStatus (-1) = 255 :=
  ⟨rfl, rfl, rfl, rfl, rfl, by decide⟩

theorem hook_of_NewHTTPServer {H : Type} (routes : List (fx.Route H))
    (res : fx.HTTPServerResult H) (hook : fx.Hook)
    (hb : fx.NewHTTPServer routes = Except.ok (res, hook)) :
    hook.OnStart = fx.OnStart ":8080" := by
  unfold fx.NewHTTPServer at hb
  cases hm : fx.NewHTTPServer.mux routes with
  | error msg => rw [hm] at hb; cases hb
  | ok mux =>
    rw [hm] at hb
    simp only [Except.ok.injEq, Prod.mk.injEq] at hb
    rw [← hb.2]

/-- C9: the `OnStart` hook that fx `NewHTTPServer` registers calls `net.Listen`
exactly once. When that call fails, the hook returns the same error and does
nothing else: no log record, no serving, no second `net.Listen`. When it
succeeds, the hook logs "Starting HTTP server", starts `srv.Serve` on the
listener it got, once, and returns nil. -/
theorem onStart_behaviour {H : Type} (routes : List (fx.Route H))
    (res : fx.HTTPServerResult H) (hook : fx.Hook)
    (hb : fx.NewHTTPServer routes = Except.ok (res, hook)) (w : World) :
    (hook.OnStart w).2.listenCalls = w.listenCalls + 1 ∧
    (∀ err, w.listenResult w.listenCalls = Except.error err →
      (hook.OnStart w).1 = some err ∧
      (hook.OnStart w).2.trace = w.trace ++ [Effect.listen "tcp" ":8080"]) ∧
    (∀ ln, w.listenResult w.listenCalls = Except.ok ln →
      (hook.OnStart w).1 = none ∧
      (hook.OnStart w).2.trace = w.trace ++
        [Effect.listen "tcp" ":8080", Effect.log ⟨Level.info, "Starting HTTP server"⟩,
          Effect.goServe ln]) := by
  rw [hook_of_NewHTTPServer routes res hook hb]
  unfold fx.OnStart netListen
  cases hl : w.listenResult w.listenCalls with
  | error e =>
    refine ⟨rfl, ?_, ?_⟩
    · intro err herr
      cases herr
      exact ⟨rfl, rfl⟩
    · intro ln hln
      cases hln
  | ok l =>
    refine ⟨rfl, ?_, ?_⟩
    · intro err herr
      cases herr
    · intro ln hln
      cases hln
      exact ⟨rfl, by simp [World.Info, World.emit]⟩

/-- Witness of C9: the hook of the fx program in an environment where the port is
taken. -/
theorem onStart_behaviour_witness :
    ∃ (res : fx.HTTPServerResult Handler) (hook : fx.Hook),
      fx.NewHTTPServer fx.routes = Except.ok (res, hook) ∧
      (hook.OnStart (World.init (fun _ => Except.error ⟨"address already in use"⟩)
          none none)).2.listenCalls = 0 + 1 ∧
      (hook.OnStart (World.init (fun _ => Except.error ⟨"address already in use"⟩)
          none none)).1 = some ⟨"address already in use"⟩ ∧
      (hook.OnStart (World.init (fun _ => Except.error ⟨"address already in use"⟩)
          none none)).2.trace = [Effect.listen "tcp" ":8080"] :=
  ⟨_, _, rfl,
    (onStart_behaviour fx.routes _ _ rfl
      (World.init (fun _ => Except.error ⟨"address already in use"⟩) none none)).1,
    ((onStart_behaviour fx.routes _ _ rfl
      (World.init (fun _ => Except.error ⟨"address already in use"⟩) none none)).2.1
        ⟨"address already in use"⟩ rfl).1,
    ((onStart_behaviour fx.routes _ _ rfl
      (World.init (fun _ => Except.error ⟨"address already in use"⟩) none none)).2.1
        ⟨"address already in use"⟩ rfl).2⟩

end Render2024
